import Mathlib

/-! Franklin: AS3935 lightning-sensor driver.

A shallow embedding of `Franklin.cpp` / `Franklin.h`.

* The chip behind the SPI bus is a register file: `readReg` returns the last
  byte written to the (6-bit) address, and a direct command such as
  `writeReg(0x3C, 0x96)` is an ordinary write.
* `uint8_t` / `uint16_t` values are natural numbers reduced modulo `2^8` /
  `2^16` wherever the source converts to that type; `int` values are integers.
* `1 << i` in `bitfieldMask` is taken modulo `2^16`, the width of the mask it is
  or-ed into.
* Every `writeReg` is recorded in a log of bus transactions.
-/

namespace Franklin

/-! ## Constants of `Franklin.h` -/

def FRANKLIN_STATE_UNKNOWN : Int := 0
def FRANKLIN_STATE_POWERDOWN : Int := 1
def FRANKLIN_STATE_LISTENING : Int := 2
def FRANKLIN_STATE_NOISY : Int := 3
def FRANKLIN_STATE_LIGHTNING : Int := 4
def FRANKLIN_STATE_DISTURBER : Int := 5

def FRANKLIN_IRQ_NOISEHIGH : Nat := 0x01
def FRANKLIN_IRQ_DISTURBER : Nat := 0x04
def FRANKLIN_IRQ_LIGHTNING : Nat := 0x08

/-! ## Driver and device state -/

/-- The driver object together with the chip it talks to: `regs` is the chip's
register file, `writes` the write transactions issued so far (newest first),
`pending_IRQ` the global `_franklin_pending_IRQ`, `calibConstant` the private
member `_calibConstant`. -/
structure Device where
  regs : Nat → Nat
  writes : List (Nat × Nat)
  pending_IRQ : Bool
  calibConstant : Nat

/-- Handler `franklin_irq_handler`: `_franklin_pending_IRQ = true`. -/
def franklin_irq_handler (d : Device) : Device :=
  { d with pending_IRQ := true }

/-- Method `Franklin::readReg`: the byte stored at address `addr & 0x3F`. -/
def readReg (d : Device) (addr : Nat) : Nat :=
  d.regs (addr &&& 0x3F) % 256

/-- Method `Franklin::writeReg`: store the byte `value` at address `addr & 0x3F`. -/
def writeReg (d : Device) (addr value : Nat) : Device :=
  { d with
    regs := fun a => if a = addr &&& 0x3F then value % 256 else d.regs a
    writes := (addr &&& 0x3F, value % 256) :: d.writes }

/-! ## Bitfield codec -/

/-- The `for` loop of `bitfieldMask`: `n` iterations left, loop variable `i`,
accumulator `mask` (a `uint16_t`). -/
def maskLoop : Nat → Nat → Nat → Nat
  | 0, _, mask => mask
  | n + 1, i, mask => maskLoop n (i + 1) ((mask ||| (1 <<< i)) % 65536)

/-- Method `Franklin::bitfieldMask`. -/
def bitfieldMask (bitwidth bitstart : Int) : Nat :=
  if bitwidth < 0 ∨ bitwidth > 16 ∨ bitstart < 0 ∨ bitstart > 15 then 0
  else maskLoop bitwidth.toNat bitstart.toNat 0

/-- Method `Franklin::extractBitfield`. -/
def extractBitfield (val : Nat) (bitwidth bitstart : Int) : Nat :=
  if bitwidth < 0 ∨ bitwidth > 16 ∨ bitstart < 0 ∨ bitstart > 15 then 0
  else ((val % 65536) &&& bitfieldMask bitwidth bitstart) >>> bitstart.toNat

/-- Method `Franklin::readPartialReg`; the result is a `uint8_t`. -/
def readPartialReg (d : Device) (addr : Nat) (bitwidth bitstart : Int) : Nat :=
  extractBitfield (readReg d addr) bitwidth bitstart % 256

/-- Method `Franklin::writePartialReg`: `val`, `bitmask` and `wrmask` are
`uint8_t`, and `~bitmask` is the complement within the byte. -/
def writePartialReg (d : Device) (addr value : Nat) (bitwidth bitstart : Int) : Device :=
  let val := readReg d addr
  let bitmask := bitfieldMask bitwidth bitstart % 256
  let wrmask := (bitmask >>> bitstart.toNat) % 256
  let val := val &&& (0xFF ^^^ bitmask)
  let val := (val ||| (((value % 256) &&& wrmask) <<< bitstart.toNat)) % 256
  writeReg d addr val

/-! ## Calibration -/

/-- Method `Franklin::setCalibration`. -/
def setCalibration (d : Device) (calibration_constant : Nat) : Device :=
  let pval := extractBitfield calibration_constant 4 8
  let d := writePartialReg d 0x08 pval 4 0
  let pval := extractBitfield calibration_constant 3 5
  let d := writePartialReg d 0x01 pval 3 4
  let pval := extractBitfield calibration_constant 5 0
  writePartialReg d 0x00 pval 5 1

/-- Method `Franklin::getCalibration`: `bf` is a `uint8_t`, `calib` a `uint16_t`. -/
def getCalibration (d : Device) : Nat :=
  let reg := readReg d 0x00
  let bf := extractBitfield reg 5 1 % 256
  let calib := bf
  let reg := readReg d 0x01
  let bf := extractBitfield reg 3 4 % 256
  let calib := (calib ||| (bf <<< 5)) % 65536
  let reg := readReg d 0x08
  let bf := extractBitfield reg 4 0 % 256
  (calib ||| (bf <<< 8)) % 65536

/-! ## Noise floor and strike threshold -/

/-- Method `Franklin::getIndoorOutdoor`. -/
def getIndoorOutdoor (d : Device) : Bool :=
  decide (readPartialReg d 0x00 5 1 ≥ 0x12)

/-- The `if`/`else` chain of `Franklin::setNoiseFloor`: the values it assigns to
`i` and `nf_lev`, or `none` where it executes `return -1`. -/
def noiseFloorSelect (indoors : Bool) (uVrms : Int) : Option (Int × Nat) :=
  if indoors then
    if uVrms ≤ 28 then some (28, 0x00)
    else if uVrms ≤ 45 then some (45, 0x01)
    else if uVrms ≤ 62 then some (62, 0x02)
    else if uVrms ≤ 78 then some (78, 0x03)
    else if uVrms ≤ 95 then some (95, 0x04)
    else if uVrms ≤ 112 then some (112, 0x05)
    else if uVrms ≤ 130 then some (130, 0x06)
    else if uVrms ≤ 146 then some (146, 0x07)
    else none
  else
    if uVrms ≤ 390 then some (390, 0x00)
    else if uVrms ≤ 630 then some (630, 0x01)
    else if uVrms ≤ 860 then some (860, 0x02)
    else if uVrms ≤ 1100 then some (1100, 0x03)
    else if uVrms ≤ 1140 then some (1140, 0x04)
    else if uVrms ≤ 1570 then some (1570, 0x05)
    else if uVrms ≤ 1800 then some (1800, 0x06)
    else if uVrms ≤ 2000 then some (2000, 0x07)
    else none

/-- Method `Franklin::setNoiseFloor`: the returned `int` and the device after
the call. -/
def setNoiseFloor (d : Device) (uVrms : Int) : Int × Device :=
  let indoors := getIndoorOutdoor d
  if uVrms < 0 then (-1, d)
  else
    match noiseFloorSelect indoors uVrms with
    | none => (-1, d)
    | some (i, nf_lev) => (i, writePartialReg d 0x01 nf_lev 3 4)

/-- Method `Franklin::setStrikeThreshold`: the three `if`s run in sequence, each
overwriting `mnl` and `i`. -/
def setStrikeThreshold (d : Device) (numStrikes : Int) : Int × Device :=
  if numStrikes < 0 ∨ numStrikes > 16 then (-1, d)
  else
    let s0 : Nat × Int := (0x00, 1)
    let s1 : Nat × Int := if numStrikes > 1 then (0x01, 5) else s0
    let s2 : Nat × Int := if numStrikes > 5 then (0x02, 9) else s1
    let s3 : Nat × Int := if numStrikes > 9 then (0x03, 16) else s2
    (s3.2, writePartialReg d 0x02 s3.1 2 4)

/-! ## Pending-event flag and state query -/

/-- Method `Franklin::clear`: the body is empty. -/
def clear (d : Device) : Device := d

/-- Method `Franklin::available`. -/
def available (d : Device) : Bool := d.pending_IRQ

/-- Method `Franklin::getState`: the returned state, or `none` where control
reaches the end of the function without a `return`, and the device after the
call. -/
def getState (d : Device) : Option Int × Device :=
  if readReg d 0x09 ≠ 0xAD then (some FRANKLIN_STATE_UNKNOWN, d)
  else
    let irq := readPartialReg d 0x03 4 0
    let d := { d with pending_IRQ := false }
    if irq = 0 then
      let pwd := readPartialReg d 0x00 1 0
      if pwd ≠ 0 then (some FRANKLIN_STATE_POWERDOWN, d)
      else (some FRANKLIN_STATE_LISTENING, d)
    else if irq &&& FRANKLIN_IRQ_LIGHTNING ≠ 0 then (some FRANKLIN_STATE_LIGHTNING, d)
    else if irq &&& FRANKLIN_IRQ_DISTURBER ≠ 0 then (some FRANKLIN_STATE_DISTURBER, d)
    else if irq &&& FRANKLIN_IRQ_NOISEHIGH ≠ 0 then (some FRANKLIN_STATE_NOISY, d)
    else (none, d)

/-! ## Construction and initialisation -/

/-- Constructor `Franklin::Franklin(csPin, irqPin, calibration_constant)`: the
pins are platform matters; the constant is stored and the global flag cleared. -/
def newFranklinCalib (d : Device) (calibration_constant : Nat) : Device :=
  { d with calibConstant := calibration_constant % 65536, pending_IRQ := false }

/-- Constructor `Franklin::Franklin(csPin, irqPin)`. -/
def newFranklin (d : Device) : Device :=
  { d with calibConstant := 0xFFFF, pending_IRQ := false }

/-- Method `Franklin::begin`: pin set-up, `delay` and interrupt attachment have
no effect on the register file. -/
def begin (d : Device) : Device :=
  let d := writeReg d 0x3C 0x96
  let d := if d.calibConstant ≠ 0xFFFF then setCalibration d d.calibConstant else d
  let d := writePartialReg d 0x00 1 1 0
  let d := writeReg d 0x3D 0x96
  let d := writePartialReg d 0x08 1 1 5
  let d := writePartialReg d 0x08 0 1 5
  let d := writePartialReg d 0x00 0 1 0
  { d with pending_IRQ := false }

/-- Method `Franklin::resetOscillatorTrim`. -/
def resetOscillatorTrim (d : Device) : Device :=
  let d := writePartialReg d 0x00 1 1 0
  let d := writeReg d 0x3D 0x96
  let d := writePartialReg d 0x08 1 1 5
  let d := writePartialReg d 0x08 0 1 5
  let d := writePartialReg d 0x00 0 1 0
  { d with pending_IRQ := false }

/-! ## Storm distance -/

/-- Method `Franklin::stormDistanceKm`; `distreg` is a `uint8_t`. -/
def stormDistanceKm (distreg : Nat) : Int :=
  let distreg := distreg % 256
  if distreg = 0x01 then 0
  else if distreg < 5 then -1
  else if distreg ≥ 5 ∧ distreg ≤ 40 then (distreg : Int)
  else -1

/-- Method `Franklin::getStormDistance`. -/
def getStormDistance (d : Device) : Int :=
  stormDistanceKm (readReg d 0x07)

/-! ## Remaining getters and setters -/

/-- Method `Franklin::setIndoors`. -/
def setIndoors (d : Device) (yesno : Bool) : Device :=
  if yesno then writePartialReg d 0x00 0x12 5 1
  else writePartialReg d 0x00 0x0E 5 1

/-- Method `Franklin::setCustomGain`. -/
def setCustomGain (d : Device) (afegain : Nat) : Device :=
  writePartialReg d 0x00 afegain 5 1

/-- Method `Franklin::getNoiseFloor`: `none` stands for the uninitialised `j`
that is returned when no `case` of the `switch` matches. -/
def getNoiseFloor (d : Device) : Option Int :=
  let indoors := getIndoorOutdoor d
  let i := readPartialReg d 0x01 3 4
  if indoors then
    match i with
    | 0x00 => some 28
    | 0x01 => some 45
    | 0x02 => some 62
    | 0x03 => some 78
    | 0x04 => some 95
    | 0x05 => some 112
    | 0x06 => some 130
    | 0x07 => some 146
    | _ => none
  else
    match i with
    | 0x00 => some 390
    | 0x01 => some 630
    | 0x02 => some 860
    | 0x03 => some 1100
    | 0x04 => some 1140
    | 0x05 => some 1570
    | 0x06 => some 1800
    | 0x07 => some 2000
    | _ => none

/-- Method `Franklin::squelchDisturbers`. -/
def squelchDisturbers (d : Device) (yesno : Bool) : Device :=
  if yesno then writePartialReg d 0x03 1 1 5
  else writePartialReg d 0x03 0 1 5

/-- Method `Franklin::getSignalThreshold`. -/
def getSignalThreshold (d : Device) : Int :=
  (readPartialReg d 0x01 4 0 : Nat)

/-- Method `Franklin::setSignalThreshold`; the `int` is converted to `uint8_t`
at the call of `writePartialReg`. -/
def setSignalThreshold (d : Device) (wdth : Int) : Device :=
  if wdth < 0 ∨ wdth > 15 then d
  else writePartialReg d 0x01 (wdth % 256).toNat 4 0

/-- Method `Franklin::getStrikeThreshold`. -/
def getStrikeThreshold (d : Device) : Int :=
  match readPartialReg d 0x02 2 4 with
  | 0x00 => 1
  | 0x01 => 5
  | 0x02 => 9
  | 0x03 => 16
  | _ => -1

/-- Method `Franklin::getSpikeRejection`. -/
def getSpikeRejection (d : Device) : Int :=
  (readPartialReg d 0x02 4 0 : Nat)

/-- Method `Franklin::setSpikeRejection`. -/
def setSpikeRejection (d : Device) (val : Int) : Device :=
  if val < 0 ∨ val > 15 then d
  else writePartialReg d 0x02 (val % 256).toNat 4 0

/-! ## Lookup tables, the byte written by a partial write, and sample devices -/

/-- The byte `writePartialReg` sends to `writeReg`. -/
def insertField (old value : Nat) (bitwidth bitstart : Int) : Nat :=
  let bitmask := bitfieldMask bitwidth bitstart % 256
  let wrmask := (bitmask >>> bitstart.toNat) % 256
  ((old &&& (0xFF ^^^ bitmask)) ||| (((value % 256) &&& wrmask) <<< bitstart.toNat)) % 256

/-- A device with all registers zero, nothing written, no pending event and no
calibration constant. -/
def zeroDevice : Device :=
  { regs := fun _ => 0, writes := [], pending_IRQ := false, calibConstant := 0xFFFF }

/-- The indoor noise-floor values of the `switch` in `getNoiseFloor`, by code. -/
def indoorTable : List Int := [28, 45, 62, 78, 95, 112, 130, 146]

/-- The outdoor noise-floor values of the `switch` in `getNoiseFloor`, by code. -/
def outdoorTable : List Int := [390, 630, 860, 1100, 1140, 1570, 1800, 2000]

/-- The strike counts of the `switch` in `getStrikeThreshold`, by code. -/
def strikeTable : List Int := [1, 5, 9, 16]

/-- The noise-floor table in force: indoor when AFE_GB, bits 1-5 of register
0x00, is at least 0x12. -/
def activeTable (d : Device) : List Int :=
  if readReg d 0x00 / 2 % 32 ≥ 0x12 then indoorTable else outdoorTable

/-- The largest entry of the table in force. -/
def activeMax (d : Device) : Int :=
  if readReg d 0x00 / 2 % 32 ≥ 0x12 then 146 else 2000

/-- A device with the given register file, nothing written yet and no
calibration constant. -/
def regDevice (regs : Nat → Nat) (pending : Bool) : Device :=
  { regs := regs, writes := [], pending_IRQ := pending, calibConstant := 0xFFFF }

/-- A device set for indoor use: AFE_GB = 0x12, every other register zero. -/
def indoorDevice : Device := regDevice (fun a => if a = 0 then 0x24 else 0) false

/-- A device that passes the sanity check, with IRQ reason `irq` and the
power-down bit `pwd`. -/
def saneDevice (irq pwd : Nat) (pending : Bool) : Device :=
  regDevice (fun a => if a = 9 then 0xAD else if a = 3 then irq else if a = 0 then pwd else 0)
    pending

/-! ## Frames and sequences of driver calls -/

/-- The oscillator-calibration steps that `begin` and `resetOscillatorTrim` both
spell out, from `PWD = 1` to `PWD = 0`. -/
def oscillatorSequence (d : Device) : Device :=
  let d := writePartialReg d 0x00 1 1 0
  let d := writeReg d 0x3D 0x96
  let d := writePartialReg d 0x08 1 1 5
  let d := writePartialReg d 0x08 0 1 5
  writePartialReg d 0x00 0 1 0

/-- Device `d'` differs from `d` at most in the bits `s .. s+w-1` of register
`addr`: the bits of that register below and above the field, every other
register, the pending flag and the stored constant are the same. -/
def onlyField (d d' : Device) (addr s w : Nat) : Prop :=
  readReg d' addr % 2 ^ s = readReg d addr % 2 ^ s ∧
  readReg d' addr / 2 ^ (s + w) = readReg d addr / 2 ^ (s + w) ∧
  (∀ b, b = addr ∨ d'.regs b = d.regs b) ∧
  d'.pending_IRQ = d.pending_IRQ ∧ d'.calibConstant = d.calibConstant

/-- The calls a program can make on the driver, the interrupt handler apart;
`getter` stands for any of the reading methods (`readReg`, `readPartialReg`,
`getCalibration`, `getIndoorOutdoor`, `getNoiseFloor`, `getSignalThreshold`,
`getStormDistance`, `getStrikeThreshold`, `getSpikeRejection`, `available`),
which return a value and leave the device as it is. -/
inductive Op where
  | newFranklin
  | newFranklinCalib (calibration_constant : Nat)
  | begin
  | resetOscillatorTrim
  | getState
  | clear
  | getter
  | writeReg (addr value : Nat)
  | writePartialReg (addr value : Nat) (bitwidth bitstart : Int)
  | setCalibration (calibration_constant : Nat)
  | setIndoors (yesno : Bool)
  | setCustomGain (afegain : Nat)
  | setNoiseFloor (uVrms : Int)
  | squelchDisturbers (yesno : Bool)
  | setSignalThreshold (wdth : Int)
  | setStrikeThreshold (numStrikes : Int)
  | setSpikeRejection (val : Int)

/-- The device after one call. -/
def run : Op → Device → Device
  | .newFranklin, d => newFranklin d
  | .newFranklinCalib c, d => newFranklinCalib d c
  | .begin, d => begin d
  | .resetOscillatorTrim, d => resetOscillatorTrim d
  | .getState, d => (getState d).2
  | .clear, d => clear d
  | .getter, d => d
  | .writeReg a v, d => writeReg d a v
  | .writePartialReg a v w s, d => writePartialReg d a v w s
  | .setCalibration c, d => setCalibration d c
  | .setIndoors b, d => setIndoors d b
  | .setCustomGain g, d => setCustomGain d g
  | .setNoiseFloor t, d => (setNoiseFloor d t).2
  | .squelchDisturbers b, d => squelchDisturbers d b
  | .setSignalThreshold w, d => setSignalThreshold d w
  | .setStrikeThreshold n, d => (setStrikeThreshold d n).2
  | .setSpikeRejection v, d => setSpikeRejection d v

/-- The device after a sequence of calls, first call first. -/
def runAll (ops : List Op) (d : Device) : Device :=
  ops.foldl (fun x o => run o x) d

/-! ## Bit-level facts about the codec -/

theorem testBit_byte (x i : Nat) :
    (x % 256).testBit i = (decide (i < 8) && x.testBit i) :=
  Nat.testBit_mod_two_pow x 8 i

theorem testBit_word (x i : Nat) :
    (x % 65536).testBit i = (decide (i < 16) && x.testBit i) :=
  Nat.testBit_mod_two_pow x 16 i

theorem testBit_FF (i : Nat) : (0xFF : Nat).testBit i = decide (i < 8) :=
  Nat.testBit_two_pow_sub_one 8 i

theorem maskLoop_testBit (n : Nat) : ∀ (i m j : Nat), m < 65536 →
    (maskLoop n i m).testBit j = (m.testBit j || decide (i ≤ j ∧ j < i + n ∧ j < 16)) := by
  induction n with
  | zero =>
    intro i m j _
    have : ¬ (i ≤ j ∧ j < i + 0 ∧ j < 16) := by omega
    rw [maskLoop, decide_eq_false this, Bool.or_false]
  | succ n ih =>
    intro i m j _
    have hlt : (m ||| 1 <<< i) % 65536 < 65536 := Nat.mod_lt _ (by decide)
    have hm : j ≥ 16 → m.testBit j = false := fun hj =>
      Nat.testBit_lt_two_pow (lt_of_lt_of_le (by assumption)
        (le_trans (by decide : 65536 ≤ 2 ^ 16) (Nat.pow_le_pow_right (by decide) hj)))
    rw [maskLoop, ih (i + 1) _ j hlt, testBit_word, Nat.testBit_or, Nat.one_shiftLeft,
      Nat.testBit_two_pow]
    by_cases h16 : j < 16
    · cases hb : m.testBit j
      · rw [decide_eq_true h16, Bool.eq_iff_iff]
        simp only [Bool.or_eq_true, Bool.and_eq_true, decide_eq_true_eq, Bool.false_or,
          Bool.true_and, and_true, h16]
        omega
      · simp only [h16, decide_True, Bool.true_and, Bool.true_or]
    · simp [h16, hm (by omega)]

/-- The mask has ones exactly at the positions `s .. s+w-1` that lie below 16. -/
theorem bitfieldMask_testBit (w s : Int) (hw0 : 0 ≤ w) (hw : w ≤ 16) (hs0 : 0 ≤ s)
    (hs : s ≤ 15) (j : Nat) :
    (bitfieldMask w s).testBit j
      = decide (s.toNat ≤ j ∧ j < s.toNat + w.toNat ∧ j < 16) := by
  have hc : ¬ (w < 0 ∨ w > 16 ∨ s < 0 ∨ s > 15) := by omega
  rw [bitfieldMask, if_neg hc, maskLoop_testBit _ _ _ _ (by decide)]
  simp

theorem bitfieldMask_lt (w s : Int) : bitfieldMask w s < 65536 := by
  unfold bitfieldMask
  split
  · decide
  · cases h : w.toNat with
    | zero => simp [maskLoop]
    | succ n =>
      have : ∀ (k i m : Nat), m < 65536 → maskLoop k i m < 65536 := by
        intro k
        induction k with
        | zero => intro i m hm; simpa [maskLoop] using hm
        | succ k ih => intro i m _; exact ih _ _ (Nat.mod_lt _ (by decide))
      exact this _ _ _ (by decide)

/-- Bit `j` of an extracted field is bit `s + j` of the 16-bit value, for `j`
inside the field width. -/
theorem extractBitfield_testBit (x : Nat) (w s : Int) (hw0 : 0 ≤ w) (hw : w ≤ 16)
    (hs0 : 0 ≤ s) (hs : s ≤ 15) (j : Nat) :
    (extractBitfield x w s).testBit j
      = (decide (j < w.toNat ∧ s.toNat + j < 16) && x.testBit (s.toNat + j)) := by
  have hc : ¬ (w < 0 ∨ w > 16 ∨ s < 0 ∨ s > 15) := by omega
  rw [extractBitfield, if_neg hc, Nat.testBit_shiftRight, Nat.testBit_and, testBit_word,
    bitfieldMask_testBit w s hw0 hw hs0 hs]
  by_cases h1 : j < w.toNat <;> by_cases h2 : s.toNat + j < 16 <;> simp [h1, h2]

/-! ## Register access -/

theorem readReg_lt (d : Device) (a : Nat) : readReg d a < 256 :=
  Nat.mod_lt _ (by decide)

theorem readReg_testBit_high (d : Device) (a i : Nat) (hi : 8 ≤ i) :
    (readReg d a).testBit i = false :=
  Nat.testBit_lt_two_pow (lt_of_lt_of_le (readReg_lt d a)
    (le_trans (by decide : 256 ≤ 2 ^ 8) (Nat.pow_le_pow_right (by decide) hi)))

theorem readReg_writeReg (d : Device) (a v b : Nat) :
    readReg (writeReg d a v) b
      = if b &&& 0x3F = a &&& 0x3F then v % 256 else readReg d b := by
  unfold readReg writeReg
  by_cases h : b &&& 0x3F = a &&& 0x3F
  · simp [h]
  · simp [h]

theorem writePartialReg_eq (d : Device) (a v : Nat) (w s : Int) :
    writePartialReg d a v w s = writeReg d a (insertField (readReg d a) v w s) := rfl

theorem insertField_lt (old v : Nat) (w s : Int) : insertField old v w s < 256 :=
  Nat.mod_lt _ (by decide)

/-- Bits of the inserted byte: inside the field they come from `value`,
outside it from the old byte. -/
theorem insertField_testBit (old v : Nat) (w s : Int) (hw0 : 0 ≤ w) (hw : w ≤ 16)
    (hs0 : 0 ≤ s) (hs : s ≤ 15) (hold : old < 256) (i : Nat) :
    (insertField old v w s).testBit i
      = if s.toNat ≤ i ∧ i < s.toNat + w.toNat ∧ i < 8 then v.testBit (i - s.toNat)
        else old.testBit i := by
  have hhigh : 8 ≤ i → old.testBit i = false := fun hi =>
    Nat.testBit_lt_two_pow (lt_of_lt_of_le hold
      (le_trans (by decide : 256 ≤ 2 ^ 8) (Nat.pow_le_pow_right (by decide) hi)))
  unfold insertField
  simp only [testBit_byte, Nat.testBit_or, Nat.testBit_and, Nat.testBit_xor, testBit_FF,
    Nat.testBit_shiftLeft, Nat.testBit_shiftRight, bitfieldMask_testBit w s hw0 hw hs0 hs]
  generalize s.toNat = S
  generalize w.toNat = W
  by_cases h8 : i < 8
  · have h16 : i < 16 := by omega
    by_cases hS : S ≤ i
    · have e1 : S + (i - S) = i := by omega
      have h3 : i - S < 8 := by omega
      have h4 : i ≥ S := hS
      by_cases hW : i < S + W
      · simp [e1, h3, h4, hS, hW, h8, h16]
      · simp [e1, h3, h4, hS, hW, h8, h16]
    · have h4 : ¬ (i ≥ S) := hS
      simp [h4, hS, h8]
  · have h2 : ¬ (S ≤ i ∧ i < S + W ∧ i < 8) := by omega
    simp [h2, h8, hhigh (by omega)]

theorem writePartialReg_same (d : Device) (a v : Nat) (w s : Int) :
    readReg (writePartialReg d a v w s) a = insertField (readReg d a) v w s := by
  rw [writePartialReg_eq, readReg_writeReg, if_pos rfl, Nat.mod_eq_of_lt (insertField_lt _ _ _ _)]

theorem writePartialReg_other (d : Device) (a v : Nat) (w s : Int) (b : Nat)
    (h : b &&& 0x3F ≠ a &&& 0x3F) :
    readReg (writePartialReg d a v w s) b = readReg d b := by
  rw [writePartialReg_eq, readReg_writeReg, if_neg h]

theorem writePartialReg_pending (d : Device) (a v : Nat) (w s : Int) :
    (writePartialReg d a v w s).pending_IRQ = d.pending_IRQ := rfl

theorem writePartialReg_calib (d : Device) (a v : Nat) (w s : Int) :
    (writePartialReg d a v w s).calibConstant = d.calibConstant := rfl

/-- Bits of the register after a read-modify-write of a valid field. -/
theorem writePartialReg_testBit (d : Device) (a v : Nat) (w s : Int) (hw0 : 0 ≤ w)
    (hw : w ≤ 16) (hs0 : 0 ≤ s) (hs : s ≤ 15) (i : Nat) :
    (readReg (writePartialReg d a v w s) a).testBit i
      = if s.toNat ≤ i ∧ i < s.toNat + w.toNat ∧ i < 8 then v.testBit (i - s.toNat)
        else (readReg d a).testBit i := by
  rw [writePartialReg_same, insertField_testBit _ _ _ _ hw0 hw hs0 hs (readReg_lt d a)]

/-! ## Fields as quotients and remainders -/

theorem testBit_div_mod (x k n i : Nat) :
    (x / 2 ^ k % 2 ^ n).testBit i = (decide (i < n) && x.testBit (k + i)) := by
  rw [Nat.testBit_mod_two_pow, ← Nat.shiftRight_eq_div_pow, Nat.testBit_shiftRight]

/-- Extraction of a valid field is a shift and a truncation of the 16-bit value. -/
theorem extractBitfield_eq (x : Nat) (w s : Int) (hw0 : 0 ≤ w) (hw : w ≤ 16)
    (hs0 : 0 ≤ s) (hs : s ≤ 15) :
    extractBitfield x w s = (x % 65536) / 2 ^ s.toNat % 2 ^ w.toNat := by
  apply Nat.eq_of_testBit_eq
  intro j
  rw [extractBitfield_testBit x w s hw0 hw hs0 hs, testBit_div_mod, testBit_word]
  by_cases h1 : j < w.toNat <;> by_cases h2 : s.toNat + j < 16 <;> simp [h1, h2]

/-- Reading back a field that lies inside the byte gives the inserted value
truncated to the field width. -/
theorem extractBitfield_insertField (old v : Nat) (w s : Int) (hw0 : 0 ≤ w) (hs0 : 0 ≤ s)
    (hws : s + w ≤ 8) (hold : old < 256) :
    extractBitfield (insertField old v w s) w s = v % 2 ^ w.toNat := by
  have hw : w ≤ 16 := by omega
  have hs : s ≤ 15 := by omega
  have hsum : s.toNat + w.toNat ≤ 8 := by omega
  apply Nat.eq_of_testBit_eq
  intro j
  rw [extractBitfield_testBit _ w s hw0 hw hs0 hs, Nat.testBit_mod_two_pow,
    insertField_testBit old v w s hw0 hw hs0 hs hold]
  generalize s.toNat = S at *
  generalize w.toNat = W at *
  by_cases h1 : j < W
  · have h2 : S + j < 16 := by omega
    have h3 : S ≤ S + j ∧ S + j < S + W ∧ S + j < 8 := by omega
    have e : S + j - S = j := by omega
    simp only [h1, h2, h3, e, and_self, decide_True, Bool.true_and, if_true]
  · have h2 : ¬ (j < W ∧ S + j < 16) := fun h => h1 h.1
    rw [decide_eq_false h2, decide_eq_false h1, Bool.false_and, Bool.false_and]

/-- Bits of the byte outside a valid field are not changed by `insertField`. -/
theorem insertField_low (old v : Nat) (w s : Int) (hw0 : 0 ≤ w) (hw : w ≤ 16)
    (hs0 : 0 ≤ s) (hs : s ≤ 15) (hold : old < 256) :
    insertField old v w s % 2 ^ s.toNat = old % 2 ^ s.toNat := by
  apply Nat.eq_of_testBit_eq
  intro j
  rw [Nat.testBit_mod_two_pow, Nat.testBit_mod_two_pow,
    insertField_testBit old v w s hw0 hw hs0 hs hold]
  by_cases h1 : j < s.toNat
  · have h2 : ¬ (s.toNat ≤ j ∧ j < s.toNat + w.toNat ∧ j < 8) := by omega
    rw [if_neg h2]
  · simp only [h1, decide_False, Bool.false_and]

theorem insertField_high (old v : Nat) (w s : Int) (hw0 : 0 ≤ w) (hw : w ≤ 16)
    (hs0 : 0 ≤ s) (hs : s ≤ 15) (hold : old < 256) :
    insertField old v w s / 2 ^ (s.toNat + w.toNat) = old / 2 ^ (s.toNat + w.toNat) := by
  apply Nat.eq_of_testBit_eq
  intro j
  rw [← Nat.shiftRight_eq_div_pow, ← Nat.shiftRight_eq_div_pow, Nat.testBit_shiftRight,
    Nat.testBit_shiftRight, insertField_testBit old v w s hw0 hw hs0 hs hold]
  have h2 : ¬ (s.toNat ≤ s.toNat + w.toNat + j ∧
      s.toNat + w.toNat + j < s.toNat + w.toNat ∧ s.toNat + w.toNat + j < 8) := by omega
  rw [if_neg h2]

theorem insertField_field (old v : Nat) (w s : Int) (hw0 : 0 ≤ w) (hs0 : 0 ≤ s)
    (hws : s + w ≤ 8) (hold : old < 256) :
    insertField old v w s / 2 ^ s.toNat % 2 ^ w.toNat = v % 2 ^ w.toNat := by
  have h := extractBitfield_insertField old v w s hw0 hs0 hws hold
  rw [extractBitfield_eq _ w s hw0 (by omega) hs0 (by omega),
    Nat.mod_eq_of_lt (lt_trans (insertField_lt old v w s) (by decide))] at h
  exact h

/-! ## Calibration: registers after `setCalibration` -/

theorem setCalibration_reg8 (d : Device) (c : Nat) :
    readReg (setCalibration d c) 0x08
      = insertField (readReg d 0x08) (extractBitfield c 4 8) 4 0 := by
  unfold setCalibration
  simp only []
  rw [writePartialReg_other _ _ _ _ _ _ (by decide),
    writePartialReg_other _ _ _ _ _ _ (by decide), writePartialReg_same]

theorem setCalibration_reg1 (d : Device) (c : Nat) :
    readReg (setCalibration d c) 0x01
      = insertField (readReg d 0x01) (extractBitfield c 3 5) 3 4 := by
  unfold setCalibration
  simp only []
  rw [writePartialReg_other _ _ _ _ _ _ (by decide), writePartialReg_same,
    writePartialReg_other _ _ _ _ _ _ (by decide)]

theorem setCalibration_reg0 (d : Device) (c : Nat) :
    readReg (setCalibration d c) 0x00
      = insertField (readReg d 0x00) (extractBitfield c 5 0) 5 1 := by
  unfold setCalibration
  simp only []
  rw [writePartialReg_same, writePartialReg_other _ _ _ _ _ _ (by decide),
    writePartialReg_other _ _ _ _ _ _ (by decide)]

theorem setCalibration_regs_other (d : Device) (c a : Nat) :
    a = 0x00 ∨ a = 0x01 ∨ a = 0x08 ∨ (setCalibration d c).regs a = d.regs a := by
  by_cases h0 : a = 0x00
  · exact Or.inl h0
  by_cases h1 : a = 0x01
  · exact Or.inr (Or.inl h1)
  by_cases h8 : a = 0x08
  · exact Or.inr (Or.inr (Or.inl h8))
  refine Or.inr (Or.inr (Or.inr ?_))
  have e0 : (0x00 : Nat) &&& 0x3F = 0x00 := by decide
  have e1 : (0x01 : Nat) &&& 0x3F = 0x01 := by decide
  have e8 : (0x08 : Nat) &&& 0x3F = 0x08 := by decide
  simp only [setCalibration, writePartialReg_eq, writeReg, e0, e1, e8, if_neg h0, if_neg h1,
    if_neg h8]

theorem calib_fields (c : Nat) :
    extractBitfield c 4 8 = c % 65536 / 256 % 16 ∧
    extractBitfield c 3 5 = c % 65536 / 32 % 8 ∧
    extractBitfield c 5 0 = c % 65536 % 32 := by
  refine ⟨?_, ?_, ?_⟩
  · simpa using extractBitfield_eq c 4 8 (by decide) (by decide) (by decide) (by decide)
  · simpa using extractBitfield_eq c 3 5 (by decide) (by decide) (by decide) (by decide)
  · simpa using extractBitfield_eq c 5 0 (by decide) (by decide) (by decide) (by decide)

theorem reg_fields (r : Nat) (hr : r < 256) :
    extractBitfield r 5 1 = r / 2 % 32 ∧
    extractBitfield r 3 4 = r / 16 % 8 ∧
    extractBitfield r 4 0 = r % 16 := by
  have h : r % 65536 = r := Nat.mod_eq_of_lt (by omega)
  refine ⟨?_, ?_, ?_⟩
  · simpa [h] using extractBitfield_eq r 5 1 (by decide) (by decide) (by decide) (by decide)
  · simpa [h] using extractBitfield_eq r 3 4 (by decide) (by decide) (by decide) (by decide)
  · simpa [h] using extractBitfield_eq r 4 0 (by decide) (by decide) (by decide) (by decide)

/-- The three calibration fields of the registers after `setCalibration`. -/
theorem setCalibration_read (d : Device) (c : Nat) :
    readReg (setCalibration d c) 0x08 % 16 = c / 256 % 16 ∧
    readReg (setCalibration d c) 0x01 / 16 % 8 = c / 32 % 8 ∧
    readReg (setCalibration d c) 0x00 / 2 % 32 = c % 32 := by
  obtain ⟨f8, f1, f0⟩ := calib_fields c
  rw [setCalibration_reg8, setCalibration_reg1, setCalibration_reg0, f8, f1, f0]
  have h8 := insertField_field (readReg d 0x08) (c % 65536 / 256 % 16) 4 0 (by decide)
    (by decide) (by decide) (readReg_lt d _)
  have h1 := insertField_field (readReg d 0x01) (c % 65536 / 32 % 8) 3 4 (by decide)
    (by decide) (by decide) (readReg_lt d _)
  have h0 := insertField_field (readReg d 0x00) (c % 65536 % 32) 5 1 (by decide)
    (by decide) (by decide) (readReg_lt d _)
  have e0 : Int.toNat 0 = 0 := rfl
  have e1 : Int.toNat 1 = 1 := rfl
  have e3 : Int.toNat 3 = 3 := rfl
  have e4 : Int.toNat 4 = 4 := rfl
  have e5 : Int.toNat 5 = 5 := rfl
  simp only [e0, e1, e3, e4, e5, Nat.reducePow, Nat.div_one] at h8 h1 h0
  refine ⟨?_, ?_, ?_⟩ <;> omega

theorem shiftLeft_lor (a b i : Nat) (h : b < 2 ^ i) : a <<< i ||| b = a * 2 ^ i + b := by
  rw [Nat.shiftLeft_eq, Nat.mul_comm, ← Nat.mul_add_lt_is_or h]

/-- The word assembled by `getCalibration`, field by field. -/
theorem getCalibration_eq (d : Device) :
    getCalibration d
      = readReg d 0x00 / 2 % 32 + (readReg d 0x01 / 16 % 8) * 32
        + (readReg d 0x08 % 16) * 256 := by
  obtain ⟨g0, -, -⟩ := reg_fields (readReg d 0x00) (readReg_lt d _)
  obtain ⟨-, g1, -⟩ := reg_fields (readReg d 0x01) (readReg_lt d _)
  obtain ⟨-, -, g8⟩ := reg_fields (readReg d 0x08) (readReg_lt d _)
  unfold getCalibration
  simp only []
  rw [g0, g1, g8]
  generalize hb : readReg d 0x01 / 16 % 8 = b
  generalize hc : readReg d 0x08 % 16 = c
  generalize ha : readReg d 0x00 / 2 % 32 = a
  have hb8 : b < 8 := by omega
  have hc16 : c < 16 := by omega
  have ha32 : a < 32 := by omega
  have ea : a % 256 = a := Nat.mod_eq_of_lt (by omega)
  have eb : b % 256 = b := Nat.mod_eq_of_lt (by omega)
  have ec : c % 256 = c := Nat.mod_eq_of_lt (by omega)
  rw [ea, eb, ec, Nat.lor_comm a, shiftLeft_lor b a 5 ha32]
  have e1 : (b * 2 ^ 5 + a) % 65536 = b * 32 + a := by
    simp only [Nat.reducePow]; omega
  rw [e1, Nat.lor_comm, shiftLeft_lor c (b * 32 + a) 8 (by simp only [Nat.reducePow]; omega)]
  simp only [Nat.reducePow]
  omega

/-- Set-then-get keeps the low twelve bits of the calibration word. -/
theorem getCalibration_setCalibration (d : Device) (c : Nat) :
    getCalibration (setCalibration d c) = c % 4096 := by
  obtain ⟨h8, h1, h0⟩ := setCalibration_read d c
  rw [getCalibration_eq, h8, h1, h0]
  omega

theorem and_0FFF (c : Nat) : c &&& 0x0FFF = c % 4096 :=
  Nat.and_pow_two_sub_one_eq_mod c 12

/-! ## Partial reads as quotients and remainders -/

theorem readPartialReg_eq (d : Device) (a : Nat) (w s : Int) (hw0 : 0 ≤ w) (hw : w ≤ 16)
    (hs0 : 0 ≤ s) (hs : s ≤ 15) :
    readPartialReg d a w s = readReg d a / 2 ^ s.toNat % 2 ^ w.toNat % 256 := by
  rw [readPartialReg, extractBitfield_eq _ w s hw0 hw hs0 hs,
    Nat.mod_eq_of_lt (lt_trans (readReg_lt d a) (by decide))]

theorem readPartialReg_afe (d : Device) :
    readPartialReg d 0x00 5 1 = readReg d 0x00 / 2 % 32 := by
  have h := readPartialReg_eq d 0x00 5 1 (by decide) (by decide) (by decide) (by decide)
  have e1 : Int.toNat 1 = 1 := rfl
  have e5 : Int.toNat 5 = 5 := rfl
  simp only [e1, e5, Nat.reducePow] at h
  omega

theorem readPartialReg_irq (d : Device) :
    readPartialReg d 0x03 4 0 = readReg d 0x03 % 16 := by
  have h := readPartialReg_eq d 0x03 4 0 (by decide) (by decide) (by decide) (by decide)
  have e0 : Int.toNat 0 = 0 := rfl
  have e4 : Int.toNat 4 = 4 := rfl
  simp only [e0, e4, Nat.reducePow, Nat.div_one] at h
  omega

theorem readPartialReg_pwd (d : Device) :
    readPartialReg d 0x00 1 0 = readReg d 0x00 % 2 := by
  have h := readPartialReg_eq d 0x00 1 0 (by decide) (by decide) (by decide) (by decide)
  have e0 : Int.toNat 0 = 0 := rfl
  have e1 : Int.toNat 1 = 1 := rfl
  simp only [e0, e1, Nat.reducePow, Nat.div_one] at h
  omega

theorem getIndoorOutdoor_eq (d : Device) :
    getIndoorOutdoor d = decide (readReg d 0x00 / 2 % 32 ≥ 0x12) := by
  rw [getIndoorOutdoor, readPartialReg_afe]

/-- The noise-floor code read back after `writePartialReg(0x01, k, 3, 4)`. -/
theorem nf_lev_written (d : Device) (k : Nat) :
    readReg (writePartialReg d 0x01 k 3 4) 0x01 / 16 % 8 = k % 8 := by
  have h := insertField_field (readReg d 0x01) k 3 4 (by decide) (by decide) (by decide)
    (readReg_lt d _)
  have e3 : Int.toNat 3 = 3 := rfl
  have e4 : Int.toNat 4 = 4 := rfl
  simp only [e3, e4, Nat.reducePow] at h
  rw [writePartialReg_same]
  exact h

/-- The strike-count code read back after `writePartialReg(0x02, k, 2, 4)`. -/
theorem min_num_ligh_written (d : Device) (k : Nat) :
    readReg (writePartialReg d 0x02 k 2 4) 0x02 / 16 % 4 = k % 4 := by
  have h := insertField_field (readReg d 0x02) k 2 4 (by decide) (by decide) (by decide)
    (readReg_lt d _)
  have e2 : Int.toNat 2 = 2 := rfl
  have e4 : Int.toNat 4 = 4 := rfl
  simp only [e2, e4, Nat.reducePow] at h
  rw [writePartialReg_same]
  exact h

/-! ## Ceiling lookups -/

theorem noiseFloorSelect_indoor (t : Int) (h0 : 0 ≤ t) (hmax : t ≤ 146) :
    ∃ i k, noiseFloorSelect true t = some (i, k) ∧ k < 8 ∧ indoorTable[k]? = some i ∧
      t ≤ i ∧ ∀ v ∈ indoorTable, t ≤ v → i ≤ v := by
  have hm : ∀ v ∈ indoorTable, v = 28 ∨ v = 45 ∨ v = 62 ∨ v = 78 ∨ v = 95 ∨ v = 112 ∨
      v = 130 ∨ v = 146 := by
    intro v hv
    simpa [indoorTable] using hv
  unfold noiseFloorSelect
  rw [if_pos rfl]
  split_ifs
  · exact ⟨28, 0, rfl, by decide, rfl, by omega, fun v hv _ => by have := hm v hv; omega⟩
  · exact ⟨45, 1, rfl, by decide, rfl, by omega, fun v hv _ => by have := hm v hv; omega⟩
  · exact ⟨62, 2, rfl, by decide, rfl, by omega, fun v hv _ => by have := hm v hv; omega⟩
  · exact ⟨78, 3, rfl, by decide, rfl, by omega, fun v hv _ => by have := hm v hv; omega⟩
  · exact ⟨95, 4, rfl, by decide, rfl, by omega, fun v hv _ => by have := hm v hv; omega⟩
  · exact ⟨112, 5, rfl, by decide, rfl, by omega, fun v hv _ => by have := hm v hv; omega⟩
  · exact ⟨130, 6, rfl, by decide, rfl, by omega, fun v hv _ => by have := hm v hv; omega⟩
  · exact ⟨146, 7, rfl, by decide, rfl, by omega, fun v hv _ => by have := hm v hv; omega⟩

theorem noiseFloorSelect_outdoor (t : Int) (h0 : 0 ≤ t) (hmax : t ≤ 2000) :
    ∃ i k, noiseFloorSelect false t = some (i, k) ∧ k < 8 ∧ outdoorTable[k]? = some i ∧
      t ≤ i ∧ ∀ v ∈ outdoorTable, t ≤ v → i ≤ v := by
  have hm : ∀ v ∈ outdoorTable, v = 390 ∨ v = 630 ∨ v = 860 ∨ v = 1100 ∨ v = 1140 ∨
      v = 1570 ∨ v = 1800 ∨ v = 2000 := by
    intro v hv
    simpa [outdoorTable] using hv
  unfold noiseFloorSelect
  rw [if_neg (by decide)]
  split_ifs
  · exact ⟨390, 0, rfl, by decide, rfl, by omega, fun v hv _ => by have := hm v hv; omega⟩
  · exact ⟨630, 1, rfl, by decide, rfl, by omega, fun v hv _ => by have := hm v hv; omega⟩
  · exact ⟨860, 2, rfl, by decide, rfl, by omega, fun v hv _ => by have := hm v hv; omega⟩
  · exact ⟨1100, 3, rfl, by decide, rfl, by omega, fun v hv _ => by have := hm v hv; omega⟩
  · exact ⟨1140, 4, rfl, by decide, rfl, by omega, fun v hv _ => by have := hm v hv; omega⟩
  · exact ⟨1570, 5, rfl, by decide, rfl, by omega, fun v hv _ => by have := hm v hv; omega⟩
  · exact ⟨1800, 6, rfl, by decide, rfl, by omega, fun v hv _ => by have := hm v hv; omega⟩
  · exact ⟨2000, 7, rfl, by decide, rfl, by omega, fun v hv _ => by have := hm v hv; omega⟩

theorem noiseFloorSelect_none (b : Bool) (t : Int) :
    noiseFloorSelect b t = none ↔ t > (if b = true then 146 else 2000) := by
  unfold noiseFloorSelect
  cases b
  · simp only [Bool.false_eq_true, if_false]
    split_ifs <;> simp <;> omega
  · simp only [if_true]
    split_ifs <;> simp <;> omega

theorem activeTable_eq (d : Device) :
    activeTable d = if getIndoorOutdoor d = true then indoorTable else outdoorTable := by
  rw [getIndoorOutdoor_eq, activeTable]
  by_cases h : readReg d 0x00 / 2 % 32 ≥ 0x12
  · rw [if_pos h, if_pos (decide_eq_true h)]
  · rw [if_neg h, if_neg (by rw [decide_eq_false h]; decide)]

theorem activeMax_eq (d : Device) :
    activeMax d = if getIndoorOutdoor d = true then 146 else 2000 := by
  rw [getIndoorOutdoor_eq, activeMax]
  by_cases h : readReg d 0x00 / 2 % 32 ≥ 0x12
  · rw [if_pos h, if_pos (decide_eq_true h)]
  · rw [if_neg h, if_neg (by rw [decide_eq_false h]; decide)]

/-- Ceiling lookup of `setNoiseFloor` for a target inside the table in force:
the code written to NF_LEV indexes the returned entry, which is the smallest
entry not less than the target. -/
theorem setNoiseFloor_ceiling (d : Device) (t : Int) (h0 : 0 ≤ t) (hmax : t ≤ activeMax d) :
    (activeTable d)[readReg (setNoiseFloor d t).2 0x01 / 16 % 8]? = some (setNoiseFloor d t).1 ∧
    t ≤ (setNoiseFloor d t).1 ∧
    ∀ v ∈ activeTable d, t ≤ v → (setNoiseFloor d t).1 ≤ v := by
  have hneg : ¬ t < 0 := by omega
  rw [activeMax_eq] at hmax
  rw [activeTable_eq]
  unfold setNoiseFloor
  simp only []
  rw [if_neg hneg]
  cases hb : getIndoorOutdoor d
  · rw [hb, if_neg (by decide)] at hmax
    obtain ⟨i, k, hsel, hk, htab, hle, hmin⟩ := noiseFloorSelect_outdoor t h0 hmax
    rw [hsel, if_neg (by decide)]
    simp only []
    rw [nf_lev_written, Nat.mod_eq_of_lt hk]
    exact ⟨htab, hle, hmin⟩
  · rw [hb, if_pos rfl] at hmax
    obtain ⟨i, k, hsel, hk, htab, hle, hmin⟩ := noiseFloorSelect_indoor t h0 hmax
    rw [hsel, if_pos rfl]
    simp only []
    rw [nf_lev_written, Nat.mod_eq_of_lt hk]
    exact ⟨htab, hle, hmin⟩

/-- What `noiseFloorSelect` yields is one of the table values, never `-1`. -/
theorem noiseFloorSelect_pos (b : Bool) (t : Int) (i : Int) (k : Nat)
    (h : noiseFloorSelect b t = some (i, k)) : 28 ≤ i := by
  unfold noiseFloorSelect at h
  cases b
  · rw [if_neg (by decide)] at h
    split_ifs at h <;> simp at h <;> omega
  · rw [if_pos rfl] at h
    split_ifs at h <;> simp at h <;> omega

/-- The targets `setNoiseFloor` rejects. -/
theorem setNoiseFloor_reject_iff (d : Device) (t : Int) :
    (setNoiseFloor d t).1 = -1 ↔ (t < 0 ∨ t > activeMax d) := by
  rw [activeMax_eq]
  unfold setNoiseFloor
  simp only []
  by_cases hneg : t < 0
  · rw [if_pos hneg]
    exact ⟨fun _ => Or.inl hneg, fun _ => rfl⟩
  · rw [if_neg hneg]
    cases hsel : noiseFloorSelect (getIndoorOutdoor d) t with
    | none =>
      exact ⟨fun _ => Or.inr ((noiseFloorSelect_none _ _).1 hsel), fun _ => rfl⟩
    | some p =>
      obtain ⟨i, k⟩ := p
      simp only []
      have hpos := noiseFloorSelect_pos _ _ _ _ hsel
      have hnn : ¬ noiseFloorSelect (getIndoorOutdoor d) t = none := by rw [hsel]; simp
      rw [noiseFloorSelect_none] at hnn
      constructor
      · intro h; omega
      · intro h; rcases h with h | h
        · exact absurd h hneg
        · exact absurd h hnn

/-- A rejected `setNoiseFloor` leaves the device, write log included, as it was. -/
theorem setNoiseFloor_reject_unchanged (d : Device) (t : Int)
    (h : (setNoiseFloor d t).1 = -1) : (setNoiseFloor d t).2 = d := by
  unfold setNoiseFloor at h ⊢
  simp only [] at h ⊢
  by_cases hneg : t < 0
  · rw [if_pos hneg]
  · rw [if_neg hneg] at h ⊢
    cases hsel : noiseFloorSelect (getIndoorOutdoor d) t with
    | none => simp only []
    | some p =>
      obtain ⟨i, k⟩ := p
      rw [hsel] at h
      simp only [] at h
      have hpos := noiseFloorSelect_pos _ _ _ _ hsel
      omega

theorem strikeTable_get (j : Nat) (v : Int) (h : strikeTable[j]? = some v) :
    (j = 0 ∧ v = 1) ∨ (j = 1 ∧ v = 5) ∨ (j = 2 ∧ v = 9) ∨ (j = 3 ∧ v = 16) := by
  unfold strikeTable at h
  rcases j with _ | _ | _ | _ | j
  · simp at h; omega
  · simp at h; omega
  · simp at h; omega
  · simp at h; omega
  · simp at h

/-- Ceiling lookup of `setStrikeThreshold` for a request in `[0,16]`. -/
theorem setStrikeThreshold_accept (d : Device) (n : Int) (h0 : 0 ≤ n) (h16 : n ≤ 16) :
    ∃ i k, setStrikeThreshold d n = (i, writePartialReg d 0x02 k 2 4) ∧ k < 4 ∧
      strikeTable[k]? = some i ∧ n ≤ i ∧
      ∀ j v, strikeTable[j]? = some v → n ≤ v → k ≤ j := by
  have hc : ¬ (n < 0 ∨ n > 16) := by omega
  unfold setStrikeThreshold
  rw [if_neg hc]
  simp only []
  by_cases h9 : n > 9
  · rw [if_pos h9]
    refine ⟨16, 3, rfl, by decide, rfl, by omega, ?_⟩
    intro j v hj hv
    have := strikeTable_get j v hj
    omega
  · rw [if_neg h9]
    by_cases h5 : n > 5
    · rw [if_pos h5]
      refine ⟨9, 2, rfl, by decide, rfl, by omega, ?_⟩
      intro j v hj hv
      have := strikeTable_get j v hj
      omega
    · rw [if_neg h5]
      by_cases h1 : n > 1
      · rw [if_pos h1]
        refine ⟨5, 1, rfl, by decide, rfl, by omega, ?_⟩
        intro j v hj hv
        have := strikeTable_get j v hj
        omega
      · rw [if_neg h1]
        refine ⟨1, 0, rfl, by decide, rfl, by omega, ?_⟩
        intro j v hj hv
        omega

theorem setStrikeThreshold_reject (d : Device) (n : Int) (h : n < 0 ∨ n > 16) :
    setStrikeThreshold d n = (-1, d) := by
  unfold setStrikeThreshold
  rw [if_pos h]

/-- A rejected `setStrikeThreshold` leaves the device, write log included, as it
was. -/
theorem setStrikeThreshold_reject_unchanged (d : Device) (n : Int)
    (h : (setStrikeThreshold d n).1 = -1) : (setStrikeThreshold d n).2 = d := by
  by_cases hc : n < 0 ∨ n > 16
  · rw [setStrikeThreshold_reject d n hc]
  · obtain ⟨i, k, he, -, htab, -, -⟩ := setStrikeThreshold_accept d n (by omega) (by omega)
    rw [he] at h
    have := strikeTable_get k i htab
    simp only [] at h
    omega

/-! ## State query -/

theorem readReg_pending (d : Device) (b : Bool) (a : Nat) :
    readReg { d with pending_IRQ := b } a = readReg d a := rfl

theorem irq_bits : ∀ i < 16,
    ((i &&& FRANKLIN_IRQ_LIGHTNING ≠ 0) ↔ i.testBit 3 = true) ∧
    ((i &&& FRANKLIN_IRQ_DISTURBER ≠ 0) ↔ i.testBit 2 = true) ∧
    ((i &&& FRANKLIN_IRQ_NOISEHIGH ≠ 0) ↔ i.testBit 0 = true) ∧
    (i = 0 → i.testBit 3 = false ∧ i.testBit 2 = false ∧ i.testBit 0 = false) := by
  decide

/-- The state reported by `getState`, as a function of registers 0x09, 0x03
and 0x00. -/
theorem getState_fst (d : Device) :
    (getState d).1 =
      if readReg d 0x09 ≠ 0xAD then some FRANKLIN_STATE_UNKNOWN
      else if readReg d 0x03 % 16 = 0 then
        (if readReg d 0x00 % 2 ≠ 0 then some FRANKLIN_STATE_POWERDOWN
         else some FRANKLIN_STATE_LISTENING)
      else if (readReg d 0x03 % 16).testBit 3 = true then some FRANKLIN_STATE_LIGHTNING
      else if (readReg d 0x03 % 16).testBit 2 = true then some FRANKLIN_STATE_DISTURBER
      else if (readReg d 0x03 % 16).testBit 0 = true then some FRANKLIN_STATE_NOISY
      else none := by
  have hlt : readReg d 0x03 % 16 < 16 := Nat.mod_lt _ (by decide)
  obtain ⟨b3, b2, b0, -⟩ := irq_bits _ hlt
  unfold getState
  simp only [readPartialReg_irq, readPartialReg_pwd, readReg_pending]
  generalize readReg d 0x03 % 16 = irq at *
  by_cases h9 : readReg d 0x09 ≠ 0xAD
  · rw [if_pos h9, if_pos h9]
  · rw [if_neg h9, if_neg h9]
    by_cases hz : irq = 0
    · rw [if_pos hz, if_pos hz]
      by_cases hp : readReg d 0x00 % 2 ≠ 0
      · rw [if_pos hp, if_pos hp]
      · rw [if_neg hp, if_neg hp]
    · rw [if_neg hz, if_neg hz]
      by_cases h3 : irq.testBit 3 = true
      · rw [if_pos (b3.2 h3), if_pos h3]
      · rw [if_neg (fun h => h3 (b3.1 h)), if_neg h3]
        by_cases h2 : irq.testBit 2 = true
        · rw [if_pos (b2.2 h2), if_pos h2]
        · rw [if_neg (fun h => h2 (b2.1 h)), if_neg h2]
          by_cases h0 : irq.testBit 0 = true
          · rw [if_pos (b0.2 h0), if_pos h0]
          · rw [if_neg (fun h => h0 (b0.1 h)), if_neg h0]

/-- The device after `getState`: untouched on a sanity-check mismatch, the
pending flag cleared otherwise. -/
theorem getState_snd (d : Device) :
    (getState d).2 =
      if readReg d 0x09 ≠ 0xAD then d else { d with pending_IRQ := false } := by
  unfold getState
  simp only []
  split_ifs <;> rfl

/-- Bits 12-15 of the calibration word do not reach the device. -/
theorem setCalibration_low12 (d : Device) (c : Nat) :
    setCalibration d c = setCalibration d (c % 4096) := by
  obtain ⟨f8, f1, f0⟩ := calib_fields c
  obtain ⟨g8, g1, g0⟩ := calib_fields (c % 4096)
  have e8 : extractBitfield c 4 8 = extractBitfield (c % 4096) 4 8 := by rw [f8, g8]; omega
  have e1 : extractBitfield c 3 5 = extractBitfield (c % 4096) 3 5 := by rw [f1, g1]; omega
  have e0 : extractBitfield c 5 0 = extractBitfield (c % 4096) 5 0 := by rw [f0, g0]; omega
  unfold setCalibration
  rw [e8, e1, e0]

/-- Bits of the three calibration registers that `setCalibration` leaves alone. -/
theorem setCalibration_frame (d : Device) (c : Nat) :
    readReg (setCalibration d c) 0x08 / 16 = readReg d 0x08 / 16 ∧
    readReg (setCalibration d c) 0x01 % 16 = readReg d 0x01 % 16 ∧
    readReg (setCalibration d c) 0x01 / 128 = readReg d 0x01 / 128 ∧
    readReg (setCalibration d c) 0x00 % 2 = readReg d 0x00 % 2 ∧
    readReg (setCalibration d c) 0x00 / 64 = readReg d 0x00 / 64 := by
  rw [setCalibration_reg8, setCalibration_reg1, setCalibration_reg0]
  have e0 : Int.toNat 0 = 0 := rfl
  have e1 : Int.toNat 1 = 1 := rfl
  have e3 : Int.toNat 3 = 3 := rfl
  have e4 : Int.toNat 4 = 4 := rfl
  have e5 : Int.toNat 5 = 5 := rfl
  have a8 := insertField_high (readReg d 0x08) (extractBitfield c 4 8) 4 0 (by decide)
    (by decide) (by decide) (by decide) (readReg_lt d _)
  have a1 := insertField_low (readReg d 0x01) (extractBitfield c 3 5) 3 4 (by decide)
    (by decide) (by decide) (by decide) (readReg_lt d _)
  have b1 := insertField_high (readReg d 0x01) (extractBitfield c 3 5) 3 4 (by decide)
    (by decide) (by decide) (by decide) (readReg_lt d _)
  have a0 := insertField_low (readReg d 0x00) (extractBitfield c 5 0) 5 1 (by decide)
    (by decide) (by decide) (by decide) (readReg_lt d _)
  have b0 := insertField_high (readReg d 0x00) (extractBitfield c 5 0) 5 1 (by decide)
    (by decide) (by decide) (by decide) (readReg_lt d _)
  simp only [e0, e1, e3, e4, e5, Nat.reduceAdd, Nat.reducePow] at a8 a1 b1 a0 b0
  exact ⟨a8, a1, b1, a0, b0⟩

/-! ## The claims -/

/-- C1 (as stated, refuted): the 13-bit word 0x1000 has bits 13-15 clear, yet
`setCalibration` followed by `getCalibration` returns 0, not 0x1000. -/
theorem calibration_roundtrip_13bit_fails :
    (0x1000 : Nat) < 2 ^ 13 ∧
    getCalibration (setCalibration zeroDevice 0x1000) = 0 ∧
    getCalibration (setCalibration zeroDevice 0x1000) ≠ 0x1000 := by
  decide

/-- C1 (amended): for every calibration word `v` whose bits 12-15 are 0 (every
12-bit value) and every initial register content, `setCalibration v` followed
by `getCalibration` returns exactly `v`. -/
theorem calibration_roundtrip_12bit (d : Device) (v : Nat) (hv : v < 4096) :
    getCalibration (setCalibration d v) = v := by
  rw [getCalibration_setCalibration, Nat.mod_eq_of_lt hv]

theorem calibration_roundtrip_12bit_witness :
    (0x0ABC : Nat) < 4096 ∧ getCalibration (setCalibration zeroDevice 0x0ABC) = 0x0ABC :=
  ⟨by decide, calibration_roundtrip_12bit zeroDevice 0x0ABC (by decide)⟩

/-- C2: for every word `w` and every initial register content, `getCalibration`
after `setCalibration w` returns `w & 0x0FFF`: TUN_CAP (bits 8-11), NF_LEV
(bits 5-7) and AFE_GB (bits 0-4) are reproduced, bits 12-15 read back as 0,
and bits 12-15 of `w` have no effect on what `setCalibration` does. -/
theorem calibration_roundtrip_mask (d : Device) (w : Nat) :
    getCalibration (setCalibration d w) = w &&& 0x0FFF ∧
    getCalibration (setCalibration d w) / 256 % 16 = w / 256 % 16 ∧
    getCalibration (setCalibration d w) / 32 % 8 = w / 32 % 8 ∧
    getCalibration (setCalibration d w) % 32 = w % 32 ∧
    getCalibration (setCalibration d w) / 4096 = 0 ∧
    setCalibration d w = setCalibration d (w &&& 0x0FFF) := by
  rw [and_0FFF, getCalibration_setCalibration]
  refine ⟨rfl, by omega, by omega, by omega, by omega, setCalibration_low12 d w⟩

/-- C3: `setCalibration w` stores bits 8-11 of `w` in bits 0-3 of register 0x08,
bits 5-7 of `w` in bits 4-6 of register 0x01 and bits 0-4 of `w` in bits 1-5 of
register 0x00; bits 4-7 of register 0x08, bits 0-3 and 7 of register 0x01, bits
0, 6 and 7 of register 0x00, every other register, the pending flag and the
stored calibration constant keep their values. -/
theorem setCalibration_effect (d : Device) (w : Nat) :
    readReg (setCalibration d w) 0x08 % 16 = w / 256 % 16 ∧
    readReg (setCalibration d w) 0x08 / 16 = readReg d 0x08 / 16 ∧
    readReg (setCalibration d w) 0x01 / 16 % 8 = w / 32 % 8 ∧
    readReg (setCalibration d w) 0x01 % 16 = readReg d 0x01 % 16 ∧
    readReg (setCalibration d w) 0x01 / 128 = readReg d 0x01 / 128 ∧
    readReg (setCalibration d w) 0x00 / 2 % 32 = w % 32 ∧
    readReg (setCalibration d w) 0x00 % 2 = readReg d 0x00 % 2 ∧
    readReg (setCalibration d w) 0x00 / 64 = readReg d 0x00 / 64 ∧
    (∀ a, a = 0x00 ∨ a = 0x01 ∨ a = 0x08 ∨ (setCalibration d w).regs a = d.regs a) ∧
    (setCalibration d w).pending_IRQ = d.pending_IRQ ∧
    (setCalibration d w).calibConstant = d.calibConstant := by
  obtain ⟨h8, h1, h0⟩ := setCalibration_read d w
  obtain ⟨a8, a1, b1, a0, b0⟩ := setCalibration_frame d w
  exact ⟨h8, a8, h1, a1, b1, h0, a0, b0, setCalibration_regs_other d w, rfl, rfl⟩

/-- C4: the decision table of `getState`. A sanity byte other than 0xAD gives
Unknown whatever the other registers hold; otherwise, with `irq` the low four
bits of register 0x03: `irq = 0` gives PowerDown when bit 0 of register 0x00 is
set and Listening when it is clear; bit 3 of `irq` set gives Lightning; else
bit 2 set gives Disturber; else bit 0 set gives Noisy. -/
theorem getState_table (d : Device) :
    (readReg d 0x09 ≠ 0xAD → (getState d).1 = some FRANKLIN_STATE_UNKNOWN) ∧
    (readReg d 0x09 = 0xAD →
      (readReg d 0x03 % 16 = 0 → (readReg d 0x00).testBit 0 = true →
        (getState d).1 = some FRANKLIN_STATE_POWERDOWN) ∧
      (readReg d 0x03 % 16 = 0 → (readReg d 0x00).testBit 0 = false →
        (getState d).1 = some FRANKLIN_STATE_LISTENING) ∧
      ((readReg d 0x03 % 16).testBit 3 = true →
        (getState d).1 = some FRANKLIN_STATE_LIGHTNING) ∧
      ((readReg d 0x03 % 16).testBit 3 = false → (readReg d 0x03 % 16).testBit 2 = true →
        (getState d).1 = some FRANKLIN_STATE_DISTURBER) ∧
      ((readReg d 0x03 % 16).testBit 3 = false → (readReg d 0x03 % 16).testBit 2 = false →
        (readReg d 0x03 % 16).testBit 0 = true →
        (getState d).1 = some FRANKLIN_STATE_NOISY)) := by
  have hlt : readReg d 0x03 % 16 < 16 := Nat.mod_lt _ (by decide)
  obtain ⟨-, -, -, hz⟩ := irq_bits _ hlt
  have hp : (readReg d 0x00).testBit 0 = decide (readReg d 0x00 % 2 = 1) :=
    Nat.testBit_zero _
  rw [getState_fst]
  generalize readReg d 0x03 % 16 = irq at *
  refine ⟨fun h9 => by rw [if_pos h9], fun h9 => ?_⟩
  rw [if_neg (not_not.2 h9)]
  refine ⟨?_, ?_, ?_, ?_, ?_⟩
  · intro h0 hb
    rw [hp, decide_eq_true_eq] at hb
    rw [if_pos h0, if_pos (by omega)]
  · intro h0 hb
    rw [hp, decide_eq_false_iff_not] at hb
    rw [if_pos h0, if_neg (by omega)]
  · intro h3
    have hne : irq ≠ 0 := fun h => by rw [(hz h).1] at h3; exact Bool.noConfusion h3
    rw [if_neg hne, if_pos h3]
  · intro h3 h2
    have hne : irq ≠ 0 := fun h => by rw [(hz h).2.1] at h2; exact Bool.noConfusion h2
    rw [if_neg hne, if_neg (by rw [h3]; decide), if_pos h2]
  · intro h3 h2 h0
    have hne : irq ≠ 0 := fun h => by rw [(hz h).2.2] at h0; exact Bool.noConfusion h0
    rw [if_neg hne, if_neg (by rw [h3]; decide), if_neg (by rw [h2]; decide), if_pos h0]

theorem getState_table_witness :
    (getState zeroDevice).1 = some FRANKLIN_STATE_UNKNOWN ∧
    (getState (saneDevice 0x00 0x01 true)).1 = some FRANKLIN_STATE_POWERDOWN ∧
    (getState (saneDevice 0x00 0x24 true)).1 = some FRANKLIN_STATE_LISTENING ∧
    (getState (saneDevice 0x0D 0x00 true)).1 = some FRANKLIN_STATE_LIGHTNING ∧
    (getState (saneDevice 0x05 0x00 true)).1 = some FRANKLIN_STATE_DISTURBER ∧
    (getState (saneDevice 0x03 0x00 true)).1 = some FRANKLIN_STATE_NOISY :=
  ⟨(getState_table zeroDevice).1 (by decide),
   ((getState_table (saneDevice 0x00 0x01 true)).2 (by decide)).1 (by decide) (by decide),
   ((getState_table (saneDevice 0x00 0x24 true)).2 (by decide)).2.1 (by decide) (by decide),
   ((getState_table (saneDevice 0x0D 0x00 true)).2 (by decide)).2.2.1 (by decide),
   ((getState_table (saneDevice 0x05 0x00 true)).2 (by decide)).2.2.2.1 (by decide)
     (by decide),
   ((getState_table (saneDevice 0x03 0x00 true)).2 (by decide)).2.2.2.2 (by decide)
     (by decide) (by decide)⟩

/-- C5 (as stated, refuted): with the sanity byte wrong and an event pending,
`getState` reports Unknown and `available` is still true afterwards. -/
theorem getState_unknown_keeps_pending :
    (getState (regDevice (fun _ => 0) true)).1 = some FRANKLIN_STATE_UNKNOWN ∧
    available (getState (regDevice (fun _ => 0) true)).2 = true := by
  decide

/-- C5 (amended): when register 0x09 reads 0xAD, `available` is false after
`getState`, for either prior value of the flag and whatever the IRQ reason;
when register 0x09 reads anything else, `getState` reports Unknown and leaves
the device, flag included, as it was. -/
theorem getState_consumes_pending (d : Device) :
    (readReg d 0x09 = 0xAD → available (getState d).2 = false) ∧
    (readReg d 0x09 ≠ 0xAD →
      (getState d).1 = some FRANKLIN_STATE_UNKNOWN ∧ (getState d).2 = d) := by
  rw [getState_snd, getState_fst]
  refine ⟨fun h9 => ?_, fun h9 => ?_⟩
  · rw [if_neg (not_not.2 h9)]
    rfl
  · rw [if_pos h9, if_pos h9]
    exact ⟨rfl, rfl⟩

theorem getState_consumes_pending_witness :
    available (getState (saneDevice 0x08 0x00 true)).2 = false ∧
    (getState (regDevice (fun _ => 0) true)).2 = regDevice (fun _ => 0) true :=
  ⟨(getState_consumes_pending (saneDevice 0x08 0x00 true)).1 (by decide),
   ((getState_consumes_pending (regDevice (fun _ => 0) true)).2 (by decide)).2⟩

/-- C6 (the code at the failing input): `clear` has an empty body, so after the
interrupt handler has set the flag and `clear` has been called, `available`
still returns true. -/
theorem clear_keeps_pending (d : Device) :
    clear d = d ∧ available (clear (franklin_irq_handler d)) = true :=
  ⟨rfl, rfl⟩

/-- C7: for every target `t` with `0 ≤ t ≤` the maximum of the table in force,
`setNoiseFloor t` returns the smallest entry of that table that is `≥ t`, and
the code it writes to NF_LEV (bits 4-6 of register 0x01) is that entry's index
in the table. -/
theorem setNoiseFloor_ceiling_lookup (d : Device) (t : Int) (h0 : 0 ≤ t)
    (hmax : t ≤ activeMax d) :
    (activeTable d)[readReg (setNoiseFloor d t).2 0x01 / 16 % 8]? = some (setNoiseFloor d t).1 ∧
    t ≤ (setNoiseFloor d t).1 ∧
    ∀ v ∈ activeTable d, t ≤ v → (setNoiseFloor d t).1 ≤ v :=
  setNoiseFloor_ceiling d t h0 hmax

theorem setNoiseFloor_ceiling_lookup_witness :
    (setNoiseFloor indoorDevice 50).1 = 62 ∧
    readReg (setNoiseFloor indoorDevice 50).2 0x01 / 16 % 8 = 2 ∧
    (activeTable indoorDevice)[readReg (setNoiseFloor indoorDevice 50).2 0x01 / 16 % 8]?
      = some (setNoiseFloor indoorDevice 50).1 :=
  ⟨by decide, by decide,
   (setNoiseFloor_ceiling_lookup indoorDevice 50 (by decide) (by decide)).1⟩

/-- C8 (as stated, refuted): the target -1 does not exceed the indoor maximum
146, yet `setNoiseFloor` rejects it. -/
theorem setNoiseFloor_rejects_negative :
    activeMax indoorDevice = 146 ∧
    ¬ ((-1 : Int) > activeMax indoorDevice) ∧
    (setNoiseFloor indoorDevice (-1)).1 = -1 := by
  decide

/-- C8 (amended): `setNoiseFloor` returns -1 if and only if the target is
negative or exceeds the maximum of the table in force; every target from 0 up
to that maximum yields the smallest table entry not less than it. -/
theorem setNoiseFloor_reject_iff_range (d : Device) (t : Int) :
    ((setNoiseFloor d t).1 = -1 ↔ (t < 0 ∨ t > activeMax d)) ∧
    (0 ≤ t → t ≤ activeMax d →
      (setNoiseFloor d t).1 ∈ activeTable d ∧ t ≤ (setNoiseFloor d t).1 ∧
      ∀ v ∈ activeTable d, t ≤ v → (setNoiseFloor d t).1 ≤ v) := by
  refine ⟨setNoiseFloor_reject_iff d t, fun h0 hmax => ?_⟩
  obtain ⟨h1, h2, h3⟩ := setNoiseFloor_ceiling d t h0 hmax
  exact ⟨List.getElem?_mem h1, h2, h3⟩

theorem setNoiseFloor_reject_iff_range_witness :
    (setNoiseFloor zeroDevice 2001).1 = -1 ∧
    (setNoiseFloor zeroDevice 0).1 ∈ activeTable zeroDevice :=
  ⟨((setNoiseFloor_reject_iff_range zeroDevice 2001).1).2 (Or.inr (by decide)),
   ((setNoiseFloor_reject_iff_range zeroDevice 0).2 (by decide) (by decide)).1⟩

/-- C9: whenever `setNoiseFloor` or `setStrikeThreshold` returns -1, the device
after the call is the device before it: no register has changed and no write
transaction has been added to the log. -/
theorem reject_without_write (d : Device) (t n : Int) :
    ((setNoiseFloor d t).1 = -1 →
      (setNoiseFloor d t).2 = d ∧ (setNoiseFloor d t).2.writes = d.writes) ∧
    ((setStrikeThreshold d n).1 = -1 →
      (setStrikeThreshold d n).2 = d ∧ (setStrikeThreshold d n).2.writes = d.writes) := by
  refine ⟨fun h => ?_, fun h => ?_⟩
  · have e := setNoiseFloor_reject_unchanged d t h
    exact ⟨e, by rw [e]⟩
  · have e := setStrikeThreshold_reject_unchanged d n h
    exact ⟨e, by rw [e]⟩

theorem reject_without_write_witness :
    (setNoiseFloor indoorDevice 200).1 = -1 ∧
    (setNoiseFloor indoorDevice 200).2 = indoorDevice ∧
    (setStrikeThreshold indoorDevice 17).1 = -1 ∧
    (setStrikeThreshold indoorDevice 17).2 = indoorDevice :=
  ⟨by decide, ((reject_without_write indoorDevice 200 17).1 (by decide)).1,
   by decide, ((reject_without_write indoorDevice 200 17).2 (by decide)).1⟩

/-- C10: for every `n` in `[0,16]`, `setStrikeThreshold n` writes into bits 4-5
of register 0x02 the smallest code whose count in the table 1, 5, 9, 16 is
`≥ n` and returns that count; for every `n` outside `[0,16]` it returns -1. -/
theorem setStrikeThreshold_ceiling (d : Device) (n : Int) :
    (0 ≤ n → n ≤ 16 →
      strikeTable[readReg (setStrikeThreshold d n).2 0x02 / 16 % 4]?
        = some (setStrikeThreshold d n).1 ∧
      n ≤ (setStrikeThreshold d n).1 ∧
      ∀ j v, strikeTable[j]? = some v → n ≤ v →
        readReg (setStrikeThreshold d n).2 0x02 / 16 % 4 ≤ j) ∧
    (n < 0 ∨ n > 16 → (setStrikeThreshold d n).1 = -1) := by
  refine ⟨fun h0 h16 => ?_, fun h => by rw [setStrikeThreshold_reject d n h]⟩
  obtain ⟨i, k, he, hk, htab, hle, hmin⟩ := setStrikeThreshold_accept d n h0 h16
  rw [he]
  simp only []
  rw [min_num_ligh_written, Nat.mod_eq_of_lt hk]
  exact ⟨htab, hle, hmin⟩

theorem setStrikeThreshold_ceiling_witness :
    (setStrikeThreshold zeroDevice 3).1 = 5 ∧
    readReg (setStrikeThreshold zeroDevice 3).2 0x02 / 16 % 4 = 1 ∧
    strikeTable[readReg (setStrikeThreshold zeroDevice 3).2 0x02 / 16 % 4]?
      = some (setStrikeThreshold zeroDevice 3).1 ∧
    (setStrikeThreshold zeroDevice 17).1 = -1 :=
  ⟨by decide, by decide,
   ((setStrikeThreshold_ceiling zeroDevice 3).1 (by decide) (by decide)).1,
   (setStrikeThreshold_ceiling zeroDevice 17).2 (Or.inr (by decide))⟩

/-! ## Storm distance, state query without a return -/

theorem stormDistanceKm_eq (b : Nat) (hb : b < 256) :
    stormDistanceKm b = if b = 1 then 0 else if 5 ≤ b ∧ b ≤ 40 then (b : Int) else -1 := by
  unfold stormDistanceKm
  simp only []
  rw [Nat.mod_eq_of_lt hb]
  by_cases h1 : b = 1
  · rw [if_pos h1, if_pos h1]
  · rw [if_neg h1, if_neg h1]
    by_cases h5 : b < 5
    · rw [if_pos h5, if_neg (by omega)]
    · rw [if_neg h5]

theorem irq_only_bit1 : ∀ i < 16,
    (i ≠ 0 ∧ i.testBit 3 = false ∧ i.testBit 2 = false ∧ i.testBit 0 = false) ↔ i = 2 := by
  decide

theorem getState_none_iff (d : Device) :
    (getState d).1 = none ↔ (readReg d 0x09 = 0xAD ∧ readReg d 0x03 % 16 = 0x02) := by
  have hlt : readReg d 0x03 % 16 < 16 := Nat.mod_lt _ (by decide)
  have hbit := irq_only_bit1 _ hlt
  rw [getState_fst]
  generalize readReg d 0x03 % 16 = irq at *
  by_cases h9 : readReg d 0x09 ≠ 0xAD
  · rw [if_pos h9]
    exact ⟨fun h => Option.noConfusion h, fun h => absurd h.1 h9⟩
  · rw [if_neg h9]
    have h9' : readReg d 0x09 = 0xAD := not_not.1 h9
    by_cases hz : irq = 0
    · rw [if_pos hz]
      constructor
      · intro h
        split_ifs at h
      · intro h
        omega
    · rw [if_neg hz]
      by_cases h3 : irq.testBit 3 = true
      · rw [if_pos h3]
        refine ⟨fun h => Option.noConfusion h, fun h => ?_⟩
        have := (hbit.2 h.2).2.1
        rw [this] at h3
        exact Bool.noConfusion h3
      · rw [if_neg h3]
        by_cases h2 : irq.testBit 2 = true
        · rw [if_pos h2]
          refine ⟨fun h => Option.noConfusion h, fun h => ?_⟩
          have := (hbit.2 h.2).2.2.1
          rw [this] at h2
          exact Bool.noConfusion h2
        · rw [if_neg h2]
          by_cases h0 : irq.testBit 0 = true
          · rw [if_pos h0]
            refine ⟨fun h => Option.noConfusion h, fun h => ?_⟩
            have := (hbit.2 h.2).2.2.2
            rw [this] at h0
            exact Bool.noConfusion h0
          · rw [if_neg h0]
            refine ⟨fun _ => ⟨h9', hbit.1 ⟨hz, ?_, ?_, ?_⟩⟩, fun _ => rfl⟩
            · exact Bool.eq_false_iff.2 h3
            · exact Bool.eq_false_iff.2 h2
            · exact Bool.eq_false_iff.2 h0

/-! ## The claims, continued -/

/-- C11: for every byte `b`, `stormDistanceKm b` is 0 if `b = 1`, `b` if
`5 ≤ b ≤ 40` and -1 for every other value; `getStormDistance` applies the same
lookup to the content of register 0x07. -/
theorem stormDistance_lookup (d : Device) (b : Nat) (hb : b < 256) :
    stormDistanceKm b = (if b = 1 then 0 else if 5 ≤ b ∧ b ≤ 40 then (b : Int) else -1) ∧
    getStormDistance d
      = (if readReg d 0x07 = 1 then 0
         else if 5 ≤ readReg d 0x07 ∧ readReg d 0x07 ≤ 40 then (readReg d 0x07 : Int)
         else -1) :=
  ⟨stormDistanceKm_eq b hb, stormDistanceKm_eq _ (readReg_lt d _)⟩

theorem stormDistance_lookup_witness :
    stormDistanceKm 1 = 0 ∧ stormDistanceKm 2 = -1 ∧ stormDistanceKm 3 = -1 ∧
    stormDistanceKm 4 = -1 ∧ stormDistanceKm 5 = 5 ∧ stormDistanceKm 40 = 40 ∧
    stormDistanceKm 41 = -1 ∧ stormDistanceKm 0 = -1 :=
  ⟨(stormDistance_lookup zeroDevice 1 (by decide)).1,
   (stormDistance_lookup zeroDevice 2 (by decide)).1,
   (stormDistance_lookup zeroDevice 3 (by decide)).1,
   (stormDistance_lookup zeroDevice 4 (by decide)).1,
   (stormDistance_lookup zeroDevice 5 (by decide)).1,
   (stormDistance_lookup zeroDevice 40 (by decide)).1,
   (stormDistance_lookup zeroDevice 41 (by decide)).1,
   (stormDistance_lookup zeroDevice 0 (by decide)).1⟩

/-- C18: `getState` reaches a `return` for every register file except exactly
when register 0x09 reads 0xAD and the low four bits of register 0x03 are 0x02;
there control runs off the end of the function and no state is produced. -/
theorem getState_falls_through_iff (d : Device) :
    ((getState d).1 = none ↔ (readReg d 0x09 = 0xAD ∧ readReg d 0x03 % 16 = 0x02)) ∧
    ((getState d).1.isSome = true ↔ ¬ (readReg d 0x09 = 0xAD ∧ readReg d 0x03 % 16 = 0x02)) := by
  have h := getState_none_iff d
  refine ⟨h, ?_⟩
  rw [← h]
  cases (getState d).1 <;> simp

/-! ## Extraction of a field that is alone in the word -/

theorem extractBitfield_of_field (v : Nat) (w s : Int) (hw0 : 0 ≤ w) (hs0 : 0 ≤ s)
    (hws : w + s ≤ 16) (hs : s ≤ 15) (hv : v < 2 ^ w.toNat) :
    extractBitfield (v * 2 ^ s.toNat) w s = v := by
  have hsum : s.toNat + w.toNat ≤ 16 := by omega
  have hlt : v * 2 ^ s.toNat < 65536 := by
    calc v * 2 ^ s.toNat < 2 ^ w.toNat * 2 ^ s.toNat :=
          Nat.mul_lt_mul_of_pos_right hv (Nat.two_pow_pos _)
      _ = 2 ^ (w.toNat + s.toNat) := (Nat.pow_add 2 _ _).symm
      _ ≤ 2 ^ 16 := Nat.pow_le_pow_right (by decide) (by omega)
      _ = 65536 := by decide
  rw [extractBitfield_eq _ w s hw0 (by omega) hs0 hs, Nat.mod_eq_of_lt hlt,
    Nat.mul_div_cancel _ (Nat.two_pow_pos _), Nat.mod_eq_of_lt hv]

theorem codec_out_of_range (x : Nat) (w s : Int) (h : w < 0 ∨ w > 16 ∨ s < 0 ∨ s > 15) :
    extractBitfield x w s = 0 ∧ bitfieldMask w s = 0 := by
  unfold extractBitfield bitfieldMask
  rw [if_pos h, if_pos h]
  exact ⟨rfl, rfl⟩

/-- C14: for every 16-bit `x`, width `w` in `[0,16]` and start `s` in `[0,15]`,
`extractBitfield x w s = ⌊x / 2^s⌋ mod 2^w`; `bitfieldMask w s` has ones exactly
at the positions `s .. s+w-1` that lie below 16; when `w + s ≤ 16` and the word
holds `v < 2^w` at that position and zeros elsewhere the result is `v`. For `w`
outside `[0,16]` or `s` outside `[0,15]` both functions return 0. -/
theorem extractBitfield_spec (x : Nat) (w s : Int) :
    (0 ≤ w → w ≤ 16 → 0 ≤ s → s ≤ 15 →
      (x < 65536 → extractBitfield x w s = x / 2 ^ s.toNat % 2 ^ w.toNat) ∧
      (∀ j, (bitfieldMask w s).testBit j
        = decide (s.toNat ≤ j ∧ j < s.toNat + w.toNat ∧ j < 16)) ∧
      (∀ v, w + s ≤ 16 → v < 2 ^ w.toNat → extractBitfield (v * 2 ^ s.toNat) w s = v)) ∧
    ((w < 0 ∨ w > 16 ∨ s < 0 ∨ s > 15) →
      extractBitfield x w s = 0 ∧ bitfieldMask w s = 0) := by
  refine ⟨fun hw0 hw hs0 hs => ⟨fun hx => ?_, fun j => ?_, fun v hws hv => ?_⟩,
    codec_out_of_range x w s⟩
  · rw [extractBitfield_eq x w s hw0 hw hs0 hs, Nat.mod_eq_of_lt hx]
  · exact bitfieldMask_testBit w s hw0 hw hs0 hs j
  · exact extractBitfield_of_field v w s hw0 hs0 hws hs hv

theorem extractBitfield_spec_witness :
    extractBitfield 0x1ABC 4 8 = 0x1ABC / 2 ^ 8 % 2 ^ 4 ∧
    extractBitfield (5 * 2 ^ 13) 3 13 = 5 ∧
    (bitfieldMask 16 15).testBit 15 = true ∧
    (bitfieldMask 16 15).testBit 16 = false ∧
    extractBitfield 0x1ABC 17 0 = 0 ∧ bitfieldMask 4 16 = 0 ∧ bitfieldMask (-1) 0 = 0 :=
  ⟨((extractBitfield_spec 0x1ABC 4 8).1 (by decide) (by decide) (by decide) (by decide)).1
     (by decide),
   ((extractBitfield_spec 0 3 13).1 (by decide) (by decide) (by decide) (by decide)).2.2 5
     (by decide) (by decide),
   (((extractBitfield_spec 0 16 15).1 (by decide) (by decide) (by decide)
     (by decide)).2.1 15).trans (by decide),
   (((extractBitfield_spec 0 16 15).1 (by decide) (by decide) (by decide)
     (by decide)).2.1 16).trans (by decide),
   ((extractBitfield_spec 0x1ABC 17 0).2 (by decide)).1,
   ((extractBitfield_spec 0 4 16).2 (by decide)).2,
   ((extractBitfield_spec 0 (-1) 0).2 (by decide)).2⟩

/-! ## Decoding of the lookup tables -/

theorem readPartialReg_nf (d : Device) :
    readPartialReg d 0x01 3 4 = readReg d 0x01 / 16 % 8 := by
  have h := readPartialReg_eq d 0x01 3 4 (by decide) (by decide) (by decide) (by decide)
  have e3 : Int.toNat 3 = 3 := rfl
  have e4 : Int.toNat 4 = 4 := rfl
  simp only [e3, e4, Nat.reducePow] at h
  omega

theorem readPartialReg_mnl (d : Device) :
    readPartialReg d 0x02 2 4 = readReg d 0x02 / 16 % 4 := by
  have h := readPartialReg_eq d 0x02 2 4 (by decide) (by decide) (by decide) (by decide)
  have e2 : Int.toNat 2 = 2 := rfl
  have e4 : Int.toNat 4 = 4 := rfl
  simp only [e2, e4, Nat.reducePow] at h
  omega

theorem getNoiseFloor_eq (d : Device) :
    getNoiseFloor d
      = (if getIndoorOutdoor d = true then indoorTable else outdoorTable)[
          readReg d 0x01 / 16 % 8]? := by
  have hk : readReg d 0x01 / 16 % 8 < 8 := Nat.mod_lt _ (by decide)
  unfold getNoiseFloor
  simp only []
  rw [readPartialReg_nf]
  generalize readReg d 0x01 / 16 % 8 = k at *
  cases getIndoorOutdoor d
  · interval_cases k <;> rfl
  · interval_cases k <;> rfl

theorem getStrikeThreshold_eq (d : Device) :
    strikeTable[readReg d 0x02 / 16 % 4]? = some (getStrikeThreshold d) := by
  have hk : readReg d 0x02 / 16 % 4 < 4 := Nat.mod_lt _ (by decide)
  unfold getStrikeThreshold
  rw [readPartialReg_mnl]
  generalize readReg d 0x02 / 16 % 4 = k at *
  interval_cases k <;> rfl

/-- C15: for every register file, `getNoiseFloor` returns the entry for the code
in bits 4-6 of register 0x01, from the indoor table when `getIndoorOutdoor` is
true and from the outdoor table otherwise, and `getStrikeThreshold` returns 1,
5, 9, 16 for the codes 0, 1, 2, 3 in bits 4-5 of register 0x02; neither returns
an uninitialised value or -1. -/
theorem lookup_decoding_total (d : Device) :
    getNoiseFloor d
      = (if getIndoorOutdoor d = true then [28, 45, 62, 78, 95, 112, 130, 146]
         else [390, 630, 860, 1100, 1140, 1570, 1800, 2000])[readReg d 0x01 / 16 % 8]? ∧
    (∃ v, getNoiseFloor d = some v ∧ v ≠ -1) ∧
    [1, 5, 9, 16][readReg d 0x02 / 16 % 4]? = some (getStrikeThreshold d) ∧
    getStrikeThreshold d ≠ -1 := by
  have hn := getNoiseFloor_eq d
  have hs := getStrikeThreshold_eq d
  have hk : readReg d 0x01 / 16 % 8 < 8 := Nat.mod_lt _ (by decide)
  refine ⟨hn, ?_, hs, ?_⟩
  · rw [hn]
    generalize readReg d 0x01 / 16 % 8 = k at *
    cases getIndoorOutdoor d
    · interval_cases k <;> exact ⟨_, rfl, by decide⟩
    · interval_cases k <;> exact ⟨_, rfl, by decide⟩
  · have := strikeTable_get _ _ hs
    omega

/-! ## Partial writes: read-back, frame, invalid fields -/

/-- Reading a field back after writing it, for any valid width and start: the
value is cut to the part of the field that lies inside the byte. -/
theorem readPartialReg_writePartialReg (d : Device) (a v : Nat) (w s : Int) (hw0 : 0 ≤ w)
    (hw : w ≤ 16) (hs0 : 0 ≤ s) (hs : s ≤ 15) :
    readPartialReg (writePartialReg d a v w s) a w s
      = (v % 256) &&& ((bitfieldMask w s % 256) >>> s.toNat) := by
  apply Nat.eq_of_testBit_eq
  intro j
  rw [readPartialReg, testBit_byte, extractBitfield_testBit _ w s hw0 hw hs0 hs,
    writePartialReg_testBit d a v w s hw0 hw hs0 hs, Nat.testBit_and, testBit_byte,
    Nat.testBit_shiftRight, testBit_byte, bitfieldMask_testBit w s hw0 hw hs0 hs]
  have hhigh := readReg_testBit_high d a
  generalize readReg d a = old at *
  generalize s.toNat = S
  generalize w.toNat = W
  by_cases hj : j < W
  · by_cases h8 : S + j < 8
    · have e : S + j - S = j := by omega
      have h1 : j < 8 := by omega
      have h2 : j < W ∧ S + j < 16 := by omega
      have h3 : S ≤ S + j ∧ S + j < S + W ∧ S + j < 8 := by omega
      have h4 : S ≤ S + j ∧ S + j < S + W ∧ S + j < 16 := by omega
      rw [if_pos h3, decide_eq_true h1, decide_eq_true h2, decide_eq_true h8,
        decide_eq_true h4, e]
      simp only [Bool.true_and, Bool.and_true]
    · have h3 : ¬ (S ≤ S + j ∧ S + j < S + W ∧ S + j < 8) := by omega
      rw [if_neg h3, hhigh (S + j) (by omega), decide_eq_false h8]
      simp only [Bool.and_false, Bool.false_and]
  · have h2 : ¬ (j < W ∧ S + j < 16) := by omega
    have h4 : ¬ (S ≤ S + j ∧ S + j < S + W ∧ S + j < 16) := by omega
    rw [decide_eq_false h2, decide_eq_false h4]
    simp only [Bool.and_false, Bool.false_and]

/-- For a field inside the byte the truncation of the mask to 8 bits changes
nothing. -/
theorem bitfieldMask_byte (w s : Int) (hw0 : 0 ≤ w) (hs0 : 0 ≤ s) (hws : w + s ≤ 8) :
    bitfieldMask w s % 256 = bitfieldMask w s := by
  apply Nat.eq_of_testBit_eq
  intro j
  rw [testBit_byte, bitfieldMask_testBit w s hw0 (by omega) hs0 (by omega)]
  have hsum : s.toNat + w.toNat ≤ 8 := by omega
  generalize s.toNat = S at *
  generalize w.toNat = W at *
  by_cases h : S ≤ j ∧ j < S + W ∧ j < 16
  · have h8 : j < 8 := by omega
    rw [decide_eq_true h, decide_eq_true h8]
    rfl
  · rw [decide_eq_false h, Bool.and_false]

/-- The shifted-down mask of a field inside the word selects the low `w` bits. -/
theorem and_mask_shift (v : Nat) (w s : Int) (hw0 : 0 ≤ w) (hs0 : 0 ≤ s) (hws : w + s ≤ 16)
    (hs : s ≤ 15) :
    v &&& (bitfieldMask w s >>> s.toNat) = v % 2 ^ w.toNat := by
  apply Nat.eq_of_testBit_eq
  intro j
  rw [Nat.testBit_and, Nat.testBit_shiftRight, Nat.testBit_mod_two_pow,
    bitfieldMask_testBit w s hw0 (by omega) hs0 hs]
  have hsum : s.toNat + w.toNat ≤ 16 := by omega
  generalize s.toNat = S at *
  generalize w.toNat = W at *
  by_cases hj : j < W
  · have h : S ≤ S + j ∧ S + j < S + W ∧ S + j < 16 := by omega
    rw [decide_eq_true h, decide_eq_true hj, Bool.and_true, Bool.true_and]
  · have h : ¬ (S ≤ S + j ∧ S + j < S + W ∧ S + j < 16) := by omega
    rw [decide_eq_false h, decide_eq_false hj, Bool.and_false, Bool.false_and]

/-- Registers other than the addressed one, and the driver's own variables, are
not touched by a partial write. -/
theorem writePartialReg_regs_other (d : Device) (a v : Nat) (w s : Int) (b : Nat) :
    b = a &&& 0x3F ∨ (writePartialReg d a v w s).regs b = d.regs b := by
  by_cases h : b = a &&& 0x3F
  · exact Or.inl h
  · refine Or.inr ?_
    simp only [writePartialReg_eq, writeReg, if_neg h]

/-- With an invalid width or start the mask is zero and the byte written back is
the byte that was read. -/
theorem insertField_invalid (old v : Nat) (w s : Int) (h : w < 0 ∨ w > 16 ∨ s < 0 ∨ s > 15)
    (hold : old < 256) : insertField old v w s = old := by
  have hm := (codec_out_of_range 0 w s h).2
  unfold insertField
  simp only [hm, Nat.zero_mod, Nat.zero_shiftRight, Nat.and_zero, Nat.zero_shiftLeft,
    Nat.or_zero, Nat.xor_zero]
  have e : old &&& 0xFF = old % 256 := Nat.and_pow_two_sub_one_eq_mod old 8
  rw [e, Nat.mod_mod, Nat.mod_eq_of_lt hold]

/-- The byte in the register after a partial write of a field inside the byte,
in the words of the read-modify-write: old bits outside the mask, new bits
inside it. -/
theorem writePartialReg_value (d : Device) (a v : Nat) (w s : Int) (hw0 : 0 ≤ w)
    (hs0 : 0 ≤ s) (hws : w + s ≤ 8) :
    readReg (writePartialReg d a v w s) a
      = (readReg d a &&& (0xFF ^^^ ((2 ^ w.toNat - 1) <<< s.toNat)))
        ||| ((v &&& (2 ^ w.toNat - 1)) <<< s.toNat) := by
  apply Nat.eq_of_testBit_eq
  intro i
  rw [writePartialReg_testBit d a v w s hw0 (by omega) hs0 (by omega), Nat.testBit_or,
    Nat.testBit_and, Nat.testBit_xor, testBit_FF, Nat.testBit_shiftLeft,
    Nat.testBit_shiftLeft, Nat.testBit_and, Nat.testBit_two_pow_sub_one]
  have hhigh := readReg_testBit_high d a
  have hsum : s.toNat + w.toNat ≤ 8 := by omega
  generalize readReg d a = old at *
  generalize s.toNat = S at *
  generalize w.toNat = W at *
  by_cases hS : i ≥ S
  · by_cases hW : i - S < W
    · have h1 : S ≤ i ∧ i < S + W ∧ i < 8 := by omega
      have h8 : i < 8 := by omega
      rw [if_pos h1, decide_eq_true hS, decide_eq_true hW, decide_eq_true h8]
      simp only [Bool.true_and, Bool.and_true, Bool.xor_self, Bool.and_false, Bool.false_or]
    · have h1 : ¬ (S ≤ i ∧ i < S + W ∧ i < 8) := by omega
      rw [if_neg h1, decide_eq_true hS, decide_eq_false hW]
      simp only [Bool.true_and, Bool.and_false, Bool.or_false, Bool.xor_false]
      by_cases h8 : i < 8
      · rw [decide_eq_true h8, Bool.and_true]
      · rw [decide_eq_false h8, Bool.and_false, hhigh i (by omega)]
  · have h1 : ¬ (S ≤ i ∧ i < S + W ∧ i < 8) := by omega
    rw [if_neg h1, decide_eq_false hS]
    simp only [Bool.false_and, Bool.or_false, Bool.xor_false]
    by_cases h8 : i < 8
    · rw [decide_eq_true h8, Bool.and_true]
    · rw [decide_eq_false h8, Bool.and_false, hhigh i (by omega)]

/-- C12 (as stated, refuted): width 8 at start 4 is inside the stated ranges;
writing 0x10 and reading the field back gives 0, while
`v & (bitfieldMask(w,s) >> s)` is 0x10. -/
theorem insert_extract_wide_field_fails :
    readPartialReg (writePartialReg zeroDevice 0x00 0x10 8 4) 0x00 8 4 = 0 ∧
    0x10 &&& (bitfieldMask 8 4 >>> 4) = 0x10 := by
  decide

/-- C12 (amended): for every register content, byte `v` and width `w ≥ 0`, start
`s ≥ 0` with `w + s ≤ 8`, `readPartialReg` after `writePartialReg` returns
`v & (bitfieldMask(w,s) >> s)`, the value truncated to `w` bits, whatever the
register held; for the other `w` in `[0,16]`, `s` in `[0,15]` it returns
`v & ((bitfieldMask(w,s) & 0xFF) >> s)`. -/
theorem insert_extract_in_byte (d : Device) (a v : Nat) (w s : Int) (hv : v < 256)
    (hw0 : 0 ≤ w) (hw : w ≤ 16) (hs0 : 0 ≤ s) (hs : s ≤ 15) :
    readPartialReg (writePartialReg d a v w s) a w s
      = v &&& ((bitfieldMask w s % 256) >>> s.toNat) ∧
    (w + s ≤ 8 →
      readPartialReg (writePartialReg d a v w s) a w s = v &&& (bitfieldMask w s >>> s.toNat) ∧
      readPartialReg (writePartialReg d a v w s) a w s = v % 2 ^ w.toNat) := by
  have h := readPartialReg_writePartialReg d a v w s hw0 hw hs0 hs
  rw [Nat.mod_eq_of_lt hv] at h
  refine ⟨h, fun hws => ?_⟩
  rw [h, bitfieldMask_byte w s hw0 hs0 hws]
  exact ⟨rfl, and_mask_shift v w s hw0 hs0 (by omega) hs⟩

theorem insert_extract_in_byte_witness :
    readPartialReg (writePartialReg indoorDevice 0x00 0x1F 3 4) 0x00 3 4
      = 0x1F &&& (bitfieldMask 3 4 >>> 4) ∧
    readPartialReg (writePartialReg indoorDevice 0x00 0x1F 3 4) 0x00 3 4 = 0x1F % 2 ^ 3 :=
  (insert_extract_in_byte indoorDevice 0x00 0x1F 3 4 (by decide) (by decide) (by decide)
    (by decide) (by decide)).2 (by decide)

/-- C13: for every register file, value `v` and width `w ≥ 0`, start `s ≥ 0` with
`w + s ≤ 8`, after `writePartialReg` the addressed register holds
`(old & ~m) | ((v & (2^w - 1)) << s)` with `m` the mask of `w` ones from bit
`s`; bits outside the field keep their old values and every other register,
the pending flag and the stored constant are unchanged. -/
theorem writePartialReg_read_modify_write (d : Device) (a v : Nat) (w s : Int)
    (hw0 : 0 ≤ w) (hs0 : 0 ≤ s) (hws : w + s ≤ 8) :
    readReg (writePartialReg d a v w s) a
      = (readReg d a &&& (0xFF ^^^ ((2 ^ w.toNat - 1) <<< s.toNat)))
        ||| ((v &&& (2 ^ w.toNat - 1)) <<< s.toNat) ∧
    readReg (writePartialReg d a v w s) a / 2 ^ s.toNat % 2 ^ w.toNat = v % 2 ^ w.toNat ∧
    readReg (writePartialReg d a v w s) a % 2 ^ s.toNat = readReg d a % 2 ^ s.toNat ∧
    readReg (writePartialReg d a v w s) a / 2 ^ (s.toNat + w.toNat)
      = readReg d a / 2 ^ (s.toNat + w.toNat) ∧
    (∀ b, b = a &&& 0x3F ∨ (writePartialReg d a v w s).regs b = d.regs b) ∧
    (writePartialReg d a v w s).pending_IRQ = d.pending_IRQ ∧
    (writePartialReg d a v w s).calibConstant = d.calibConstant := by
  refine ⟨writePartialReg_value d a v w s hw0 hs0 hws, ?_, ?_, ?_,
    writePartialReg_regs_other d a v w s, rfl, rfl⟩
  · rw [writePartialReg_same]
    exact insertField_field _ v w s hw0 hs0 (by omega) (readReg_lt d a)
  · rw [writePartialReg_same]
    exact insertField_low _ v w s hw0 (by omega) hs0 (by omega) (readReg_lt d a)
  · rw [writePartialReg_same]
    exact insertField_high _ v w s hw0 (by omega) hs0 (by omega) (readReg_lt d a)

theorem writePartialReg_read_modify_write_witness :
    readReg (writePartialReg (regDevice (fun _ => 0xA5) false) 0x01 0xFF 3 4) 0x01 = 0xF5 ∧
    readReg (writePartialReg (regDevice (fun _ => 0xA5) false) 0x01 0xFF 3 4) 0x01
      = (0xA5 &&& (0xFF ^^^ ((2 ^ 3 - 1) <<< 4))) ||| ((0xFF &&& (2 ^ 3 - 1)) <<< 4) :=
  ⟨by decide,
   (writePartialReg_read_modify_write (regDevice (fun _ => 0xA5) false) 0x01 0xFF 3 4
     (by decide) (by decide) (by decide)).1⟩

/-- C17 (as stated, refuted): width 17 is invalid, yet `writePartialReg` issues a
`writeReg` transaction (writing back the byte it read). -/
theorem writePartialReg_invalid_still_writes :
    zeroDevice.writes = [] ∧
    (writePartialReg zeroDevice 0x00 0xFF 17 0).writes = [(0x00, 0x00)] := by
  decide

/-- C17 (amended): for every width outside `[0,16]` or start outside `[0,15]`,
`writePartialReg` issues exactly one `writeReg` transaction, which writes back
the byte just read from the register, so that no register reads differently
afterwards. -/
theorem writePartialReg_invalid_writes_back (d : Device) (a v : Nat) (w s : Int)
    (h : w < 0 ∨ w > 16 ∨ s < 0 ∨ s > 15) :
    writePartialReg d a v w s = writeReg d a (readReg d a) ∧
    (writePartialReg d a v w s).writes = (a &&& 0x3F, readReg d a) :: d.writes ∧
    ∀ b, readReg (writePartialReg d a v w s) b = readReg d b := by
  have e : writePartialReg d a v w s = writeReg d a (readReg d a) := by
    rw [writePartialReg_eq, insertField_invalid _ v w s h (readReg_lt d a)]
  rw [e]
  refine ⟨rfl, ?_, fun b => ?_⟩
  · simp only [writeReg, Nat.mod_eq_of_lt (readReg_lt d a)]
  · rw [readReg_writeReg, Nat.mod_eq_of_lt (readReg_lt d a)]
    by_cases hb : b &&& 0x3F = a &&& 0x3F
    · rw [if_pos hb]
      unfold readReg
      rw [hb]
    · rw [if_neg hb]

theorem writePartialReg_invalid_writes_back_witness :
    (writePartialReg indoorDevice 0x00 0xFF 17 0).writes = [(0x00, 0x24)] ∧
    readReg (writePartialReg indoorDevice 0x00 0xFF 17 0) 0x00 = readReg indoorDevice 0x00 :=
  ⟨(writePartialReg_invalid_writes_back indoorDevice 0x00 0xFF 17 0 (by decide)).2.1.trans
     (by decide),
   (writePartialReg_invalid_writes_back indoorDevice 0x00 0xFF 17 0 (by decide)).2.2 0x00⟩

/-! ## Every setter stays inside its field -/

theorem and_3F (a : Nat) (ha : a < 64) : a &&& 0x3F = a := by
  have h : a &&& 0x3F = a % 64 := Nat.and_pow_two_sub_one_eq_mod a 6
  rw [h, Nat.mod_eq_of_lt ha]

theorem onlyField_refl (d : Device) (a s w : Nat) : onlyField d d a s w :=
  ⟨rfl, rfl, fun _ => Or.inr rfl, rfl, rfl⟩

theorem onlyField_writePartialReg (d : Device) (a v : Nat) (w s : Int) (ha : a < 64)
    (hw0 : 0 ≤ w) (hw : w ≤ 16) (hs0 : 0 ≤ s) (hs : s ≤ 15) :
    onlyField d (writePartialReg d a v w s) a s.toNat w.toNat := by
  refine ⟨?_, ?_, fun b => ?_, rfl, rfl⟩
  · rw [writePartialReg_same]
    exact insertField_low _ v w s hw0 hw hs0 hs (readReg_lt d a)
  · rw [writePartialReg_same]
    exact insertField_high _ v w s hw0 hw hs0 hs (readReg_lt d a)
  · have h := writePartialReg_regs_other d a v w s b
    rw [and_3F a ha] at h
    exact h

theorem setNoiseFloor_snd (d : Device) (t : Int) :
    (setNoiseFloor d t).2 = d ∨ ∃ k, (setNoiseFloor d t).2 = writePartialReg d 0x01 k 3 4 := by
  unfold setNoiseFloor
  simp only []
  by_cases hneg : t < 0
  · rw [if_pos hneg]
    exact Or.inl rfl
  · rw [if_neg hneg]
    cases noiseFloorSelect (getIndoorOutdoor d) t with
    | none => exact Or.inl rfl
    | some p => exact Or.inr ⟨p.2, rfl⟩

theorem setStrikeThreshold_snd (d : Device) (n : Int) :
    (setStrikeThreshold d n).2 = d ∨
      ∃ k, (setStrikeThreshold d n).2 = writePartialReg d 0x02 k 2 4 := by
  by_cases hc : n < 0 ∨ n > 16
  · rw [setStrikeThreshold_reject d n hc]
    exact Or.inl rfl
  · obtain ⟨i, k, he, -⟩ := setStrikeThreshold_accept d n (by omega) (by omega)
    rw [he]
    exact Or.inr ⟨k, rfl⟩

/-- C20: every configuration setter changes at most the bits of its own field:
`setIndoors` and `setCustomGain` bits 1-5 of register 0x00, `setNoiseFloor`
bits 4-6 of register 0x01, `setSignalThreshold` bits 0-3 of register 0x01,
`setStrikeThreshold` bits 4-5 of register 0x02, `setSpikeRejection` bits 0-3 of
register 0x02, `squelchDisturbers` bit 5 of register 0x03; the threshold setter
leaves the noise-floor code alone, and `setSignalThreshold` and
`setSpikeRejection` with an argument outside 0..15 return the device as it
was. -/
theorem setters_stay_in_field (d : Device) (yesno : Bool) (afegain : Nat)
    (uVrms numStrikes wdth val : Int) :
    onlyField d (setIndoors d yesno) 0x00 1 5 ∧
    onlyField d (setCustomGain d afegain) 0x00 1 5 ∧
    onlyField d (setNoiseFloor d uVrms).2 0x01 4 3 ∧
    onlyField d (setSignalThreshold d wdth) 0x01 0 4 ∧
    onlyField d (setStrikeThreshold d numStrikes).2 0x02 4 2 ∧
    onlyField d (setSpikeRejection d val) 0x02 0 4 ∧
    onlyField d (squelchDisturbers d yesno) 0x03 5 1 ∧
    readReg (setSignalThreshold d wdth) 0x01 / 16 % 8 = readReg d 0x01 / 16 % 8 ∧
    ((wdth < 0 ∨ wdth > 15) → setSignalThreshold d wdth = d) ∧
    ((val < 0 ∨ val > 15) → setSpikeRejection d val = d) := by
  have hsig : onlyField d (setSignalThreshold d wdth) 0x01 0 4 := by
    unfold setSignalThreshold
    split_ifs
    · exact onlyField_refl d _ _ _
    · exact onlyField_writePartialReg d 0x01 _ 4 0 (by decide) (by decide) (by decide)
        (by decide) (by decide)
  refine ⟨?_, ?_, ?_, hsig, ?_, ?_, ?_, ?_, ?_, ?_⟩
  · unfold setIndoors
    split_ifs
    · exact onlyField_writePartialReg d 0x00 _ 5 1 (by decide) (by decide) (by decide)
        (by decide) (by decide)
    · exact onlyField_writePartialReg d 0x00 _ 5 1 (by decide) (by decide) (by decide)
        (by decide) (by decide)
  · exact onlyField_writePartialReg d 0x00 _ 5 1 (by decide) (by decide) (by decide)
      (by decide) (by decide)
  · rcases setNoiseFloor_snd d uVrms with h | ⟨k, h⟩
    · rw [h]
      exact onlyField_refl d _ _ _
    · rw [h]
      exact onlyField_writePartialReg d 0x01 _ 3 4 (by decide) (by decide) (by decide)
        (by decide) (by decide)
  · rcases setStrikeThreshold_snd d numStrikes with h | ⟨k, h⟩
    · rw [h]
      exact onlyField_refl d _ _ _
    · rw [h]
      exact onlyField_writePartialReg d 0x02 _ 2 4 (by decide) (by decide) (by decide)
        (by decide) (by decide)
  · unfold setSpikeRejection
    split_ifs
    · exact onlyField_refl d _ _ _
    · exact onlyField_writePartialReg d 0x02 _ 4 0 (by decide) (by decide) (by decide)
        (by decide) (by decide)
  · unfold squelchDisturbers
    split_ifs
    · exact onlyField_writePartialReg d 0x03 _ 1 5 (by decide) (by decide) (by decide)
        (by decide) (by decide)
    · exact onlyField_writePartialReg d 0x03 _ 1 5 (by decide) (by decide) (by decide)
        (by decide) (by decide)
  · have h := hsig.2.1
    simp only [Nat.zero_add, Nat.reducePow] at h
    rw [h]
  · intro h
    unfold setSignalThreshold
    rw [if_pos h]
  · intro h
    unfold setSpikeRejection
    rw [if_pos h]

theorem setters_stay_in_field_witness :
    setSignalThreshold indoorDevice 16 = indoorDevice ∧
    setSpikeRejection indoorDevice (-1) = indoorDevice ∧
    readReg (setSignalThreshold (regDevice (fun _ => 0x7F) false) 0) 0x01 = 0x70 :=
  ⟨(setters_stay_in_field indoorDevice true 0 0 0 16 (-1)).2.2.2.2.2.2.2.2.1
     (Or.inr (by decide)),
   (setters_stay_in_field indoorDevice true 0 0 0 16 (-1)).2.2.2.2.2.2.2.2.2
     (Or.inl (by decide)),
   by decide⟩

/-! ## The pending flag under driver calls -/

/-- A call either clears the pending flag or leaves it as it was. -/
theorem run_pending (op : Op) (d : Device) :
    (run op d).pending_IRQ = false ∨ (run op d).pending_IRQ = d.pending_IRQ := by
  cases op with
  | newFranklin => exact Or.inl rfl
  | newFranklinCalib c => exact Or.inl rfl
  | begin => exact Or.inl rfl
  | resetOscillatorTrim => exact Or.inl rfl
  | getState =>
    show (getState d).2.pending_IRQ = false ∨ (getState d).2.pending_IRQ = d.pending_IRQ
    rw [getState_snd]
    split_ifs
    · exact Or.inr rfl
    · exact Or.inl rfl
  | clear => exact Or.inr rfl
  | getter => exact Or.inr rfl
  | writeReg a v => exact Or.inr rfl
  | writePartialReg a v w s => exact Or.inr rfl
  | setCalibration c => exact Or.inr rfl
  | setIndoors b =>
    show (setIndoors d b).pending_IRQ = false ∨ (setIndoors d b).pending_IRQ = d.pending_IRQ
    unfold setIndoors
    split_ifs <;> exact Or.inr rfl
  | setCustomGain g => exact Or.inr rfl
  | setNoiseFloor t =>
    show (setNoiseFloor d t).2.pending_IRQ = false ∨
      (setNoiseFloor d t).2.pending_IRQ = d.pending_IRQ
    rcases setNoiseFloor_snd d t with h | ⟨k, h⟩ <;> rw [h] <;> exact Or.inr rfl
  | squelchDisturbers b =>
    show (squelchDisturbers d b).pending_IRQ = false ∨
      (squelchDisturbers d b).pending_IRQ = d.pending_IRQ
    unfold squelchDisturbers
    split_ifs <;> exact Or.inr rfl
  | setSignalThreshold w =>
    show (setSignalThreshold d w).pending_IRQ = false ∨
      (setSignalThreshold d w).pending_IRQ = d.pending_IRQ
    unfold setSignalThreshold
    split_ifs <;> exact Or.inr rfl
  | setStrikeThreshold n =>
    show (setStrikeThreshold d n).2.pending_IRQ = false ∨
      (setStrikeThreshold d n).2.pending_IRQ = d.pending_IRQ
    rcases setStrikeThreshold_snd d n with h | ⟨k, h⟩ <;> rw [h] <;> exact Or.inr rfl
  | setSpikeRejection v =>
    show (setSpikeRejection d v).pending_IRQ = false ∨
      (setSpikeRejection d v).pending_IRQ = d.pending_IRQ
    unfold setSpikeRejection
    split_ifs <;> exact Or.inr rfl

theorem run_keeps_false (op : Op) (d : Device) (h : d.pending_IRQ = false) :
    (run op d).pending_IRQ = false := by
  rcases run_pending op d with h1 | h1
  · exact h1
  · rw [h1, h]

theorem runAll_keeps_false (ops : List Op) : ∀ d : Device, d.pending_IRQ = false →
    (runAll ops d).pending_IRQ = false := by
  induction ops with
  | nil => intro d h; exact h
  | cons op ops ih =>
    intro d h
    show (runAll ops (run op d)).pending_IRQ = false
    exact ih _ (run_keeps_false op d h)

/-- C16: `franklin_irq_handler` sets the pending flag and changes nothing else;
`available` returns the flag; no other call of the driver (constructors,
`begin`, `resetOscillatorTrim`, `getState`, `clear`, getters, setters) turns a
false flag into a true one, singly or in any sequence, so `available` stays
false until the handler runs, after which it returns true. -/
theorem pending_set_only_by_handler (d : Device) (op : Op) (ops : List Op) :
    (franklin_irq_handler d).pending_IRQ = true ∧
    (franklin_irq_handler d).regs = d.regs ∧
    (franklin_irq_handler d).writes = d.writes ∧
    available d = d.pending_IRQ ∧
    (d.pending_IRQ = false → (run op d).pending_IRQ = false) ∧
    (d.pending_IRQ = false → available (runAll ops d) = false) ∧
    available (franklin_irq_handler (runAll ops d)) = true :=
  ⟨rfl, rfl, rfl, rfl, run_keeps_false op d, runAll_keeps_false ops d, rfl⟩

theorem pending_set_only_by_handler_witness :
    available (run Op.begin zeroDevice) = false ∧
    available (runAll [Op.getter, Op.setNoiseFloor 50, Op.clear, Op.getState,
      Op.setCalibration 0x0ABC, Op.getter] indoorDevice) = false ∧
    available (franklin_irq_handler (runAll [Op.getter, Op.getter] indoorDevice)) = true :=
  ⟨(pending_set_only_by_handler zeroDevice Op.begin []).2.2.2.2.1 rfl,
   (pending_set_only_by_handler indoorDevice Op.getter [Op.getter, Op.setNoiseFloor 50,
      Op.clear, Op.getState, Op.setCalibration 0x0ABC, Op.getter]).2.2.2.2.2.1 rfl,
   (pending_set_only_by_handler indoorDevice Op.getter [Op.getter, Op.getter]).2.2.2.2.2.2⟩

/-! ## Initialisation -/

theorem readReg_writeReg_other (d : Device) (a v b : Nat) (h : b &&& 0x3F ≠ a &&& 0x3F) :
    readReg (writeReg d a v) b = readReg d b := by
  rw [readReg_writeReg, if_neg h]

theorem oscillatorSequence_reg0 (d : Device) :
    readReg (oscillatorSequence d) 0x00
      = insertField (insertField (readReg d 0x00) 1 1 0) 0 1 0 := by
  unfold oscillatorSequence
  simp only []
  rw [writePartialReg_same, writePartialReg_other _ _ _ _ _ _ (by decide),
    writePartialReg_other _ _ _ _ _ _ (by decide),
    readReg_writeReg_other _ _ _ _ (by decide), writePartialReg_same]

theorem oscillatorSequence_reg8 (d : Device) :
    readReg (oscillatorSequence d) 0x08
      = insertField (insertField (readReg d 0x08) 1 1 5) 0 1 5 := by
  unfold oscillatorSequence
  simp only []
  rw [writePartialReg_other _ _ _ _ _ _ (by decide), writePartialReg_same,
    writePartialReg_same, readReg_writeReg_other _ _ _ _ (by decide),
    writePartialReg_other _ _ _ _ _ _ (by decide)]

theorem oscillatorSequence_reg1 (d : Device) :
    readReg (oscillatorSequence d) 0x01 = readReg d 0x01 := by
  unfold oscillatorSequence
  simp only []
  rw [writePartialReg_other _ _ _ _ _ _ (by decide),
    writePartialReg_other _ _ _ _ _ _ (by decide),
    writePartialReg_other _ _ _ _ _ _ (by decide),
    readReg_writeReg_other _ _ _ _ (by decide),
    writePartialReg_other _ _ _ _ _ _ (by decide)]

/-- After the oscillator sequence the power-down bit and the display bit are 0
and the rest of registers 0x00 and 0x08 below bit 6 is as before. -/
theorem oscillatorSequence_bits (d : Device) :
    readReg (oscillatorSequence d) 0x00 % 2 = 0 ∧
    readReg (oscillatorSequence d) 0x00 / 2 = readReg d 0x00 / 2 ∧
    readReg (oscillatorSequence d) 0x08 / 32 % 2 = 0 ∧
    readReg (oscillatorSequence d) 0x08 % 32 = readReg d 0x08 % 32 := by
  have e0 : Int.toNat 0 = 0 := rfl
  have e1 : Int.toNat 1 = 1 := rfl
  have e5 : Int.toNat 5 = 5 := rfl
  rw [oscillatorSequence_reg0, oscillatorSequence_reg8]
  have a0 := insertField_field (insertField (readReg d 0x00) 1 1 0) 0 1 0 (by decide)
    (by decide) (by decide) (insertField_lt _ _ _ _)
  have b0 := insertField_high (insertField (readReg d 0x00) 1 1 0) 0 1 0 (by decide)
    (by decide) (by decide) (by decide) (insertField_lt _ _ _ _)
  have c0 := insertField_high (readReg d 0x00) 1 1 0 (by decide)
    (by decide) (by decide) (by decide) (readReg_lt d _)
  have a8 := insertField_field (insertField (readReg d 0x08) 1 1 5) 0 1 5 (by decide)
    (by decide) (by decide) (insertField_lt _ _ _ _)
  have b8 := insertField_low (insertField (readReg d 0x08) 1 1 5) 0 1 5 (by decide)
    (by decide) (by decide) (by decide) (insertField_lt _ _ _ _)
  have c8 := insertField_low (readReg d 0x08) 1 1 5 (by decide)
    (by decide) (by decide) (by decide) (readReg_lt d _)
  simp only [e0, e1, e5, Nat.reduceAdd, Nat.reducePow, Nat.div_one, Nat.zero_mod] at a0 b0 c0 a8 b8 c8
  refine ⟨a0, ?_, a8, ?_⟩
  · rw [b0, c0]
  · rw [b8, c8]

theorem getCalibration_oscillatorSequence (d : Device) :
    getCalibration (oscillatorSequence d) = getCalibration d := by
  obtain ⟨-, h0, -, h8⟩ := oscillatorSequence_bits d
  rw [getCalibration_eq, getCalibration_eq, oscillatorSequence_reg1, h0]
  omega

theorem begin_eq (d : Device) :
    begin d =
      { oscillatorSequence
          (if d.calibConstant ≠ 0xFFFF then
            setCalibration (writeReg d 0x3C 0x96) d.calibConstant
           else writeReg d 0x3C 0x96) with pending_IRQ := false } := rfl

theorem getCalibration_preset (d : Device) :
    getCalibration (writeReg d 0x3C 0x96) = getCalibration d := by
  rw [getCalibration_eq, getCalibration_eq, readReg_writeReg_other _ _ _ _ (by decide),
    readReg_writeReg_other _ _ _ _ (by decide), readReg_writeReg_other _ _ _ _ (by decide)]

theorem getCalibration_pending (d : Device) (b : Bool) :
    getCalibration { d with pending_IRQ := b } = getCalibration d := rfl

/-- The calibration word read back after `begin`: the stored constant when one
was given, the previous register fields otherwise. -/
theorem getCalibration_begin (d : Device) :
    getCalibration (begin d)
      = if d.calibConstant ≠ 0xFFFF then d.calibConstant % 4096 else getCalibration d := by
  rw [begin_eq, getCalibration_pending, getCalibration_oscillatorSequence]
  by_cases h : d.calibConstant ≠ 0xFFFF
  · rw [if_pos h, if_pos h, getCalibration_setCalibration]
  · rw [if_neg h, if_neg h, getCalibration_preset]

/-- The three calibration fields are determined by the calibration word. -/
theorem fields_of_getCalibration (d d' : Device) (h : getCalibration d' = getCalibration d) :
    readReg d' 0x08 % 16 = readReg d 0x08 % 16 ∧
    readReg d' 0x01 / 16 % 8 = readReg d 0x01 / 16 % 8 ∧
    readReg d' 0x00 / 2 % 32 = readReg d 0x00 / 2 % 32 := by
  rw [getCalibration_eq, getCalibration_eq] at h
  refine ⟨?_, ?_, ?_⟩ <;> omega

theorem begin_bits (d : Device) :
    available (begin d) = false ∧ readReg (begin d) 0x00 % 2 = 0 ∧
    readReg (begin d) 0x08 / 32 % 2 = 0 := by
  rw [begin_eq]
  refine ⟨rfl, ?_, ?_⟩
  · rw [readReg_pending]
    exact (oscillatorSequence_bits _).1
  · rw [readReg_pending]
    exact (oscillatorSequence_bits _).2.2.1

/-- C19: after `begin` on any register file the pending flag is false, the
power-down bit (register 0x00 bit 0) is 0 and the display bit (register 0x08
bit 5) is 0; a driver constructed with a constant `c` other than 0xFFFF reads
back `c & 0x0FFF` from `getCalibration`; a driver constructed without a
constant, or with 0xFFFF, finds the three calibration fields as they were
before `begin`. -/
theorem begin_postcondition (d : Device) (c : Nat) :
    available (begin d) = false ∧
    readReg (begin d) 0x00 % 2 = 0 ∧
    readReg (begin d) 0x08 / 32 % 2 = 0 ∧
    (c % 65536 ≠ 0xFFFF → getCalibration (begin (newFranklinCalib d c)) = c &&& 0x0FFF) ∧
    (readReg (begin (newFranklin d)) 0x08 % 16 = readReg d 0x08 % 16 ∧
     readReg (begin (newFranklin d)) 0x01 / 16 % 8 = readReg d 0x01 / 16 % 8 ∧
     readReg (begin (newFranklin d)) 0x00 / 2 % 32 = readReg d 0x00 / 2 % 32) ∧
    (readReg (begin (newFranklinCalib d 0xFFFF)) 0x08 % 16 = readReg d 0x08 % 16 ∧
     readReg (begin (newFranklinCalib d 0xFFFF)) 0x01 / 16 % 8 = readReg d 0x01 / 16 % 8 ∧
     readReg (begin (newFranklinCalib d 0xFFFF)) 0x00 / 2 % 32 = readReg d 0x00 / 2 % 32) := by
  obtain ⟨h1, h2, h3⟩ := begin_bits d
  refine ⟨h1, h2, h3, fun hc => ?_, ?_, ?_⟩
  · rw [getCalibration_begin, if_pos (show (newFranklinCalib d c).calibConstant ≠ 0xFFFF
      from hc), and_0FFF]
    show c % 65536 % 4096 = c % 4096
    omega
  · apply fields_of_getCalibration
    rw [getCalibration_begin, if_neg (show ¬ (newFranklin d).calibConstant ≠ 0xFFFF
      from fun h => h rfl)]
    rfl
  · apply fields_of_getCalibration
    rw [getCalibration_begin, if_neg (show ¬ (newFranklinCalib d 0xFFFF).calibConstant ≠ 0xFFFF
      from fun h => h rfl)]
    rfl

theorem begin_postcondition_witness :
    getCalibration (begin (newFranklinCalib (regDevice (fun _ => 0xFF) true) 0x1ABC)) = 0x0ABC ∧
    readReg (begin (newFranklinCalib (regDevice (fun _ => 0xFF) true) 0x1ABC)) 0x00 = 0xF8 ∧
    readReg (begin (newFranklinCalib (regDevice (fun _ => 0xFF) true) 0x1ABC)) 0x08 = 0xDA :=
  ⟨((begin_postcondition (regDevice (fun _ => 0xFF) true) 0x1ABC).2.2.2.1 (by decide)).trans
     (by decide),
   by decide, by decide⟩

end Franklin
